import Mathlib

/-!
Verification development for the hours-tracking calculation engine.

The repository contains several variants of the same React application; the
calculation code lives in `calculateTotals` / `calculateRevenueBreakdown` of
each variant.  We embed the arithmetic core of each variant shallowly:

* `part_002` — the sequential/transfer variant: gross per rate-resolved entry,
  deductions applied sequentially against a running remaining amount (with
  name-driven special cases for "Salary" / "MGMT Fee" / "Profit Share"),
  two-phase cross-profile transfers, and aggregation.
* `part_001` (first app, line 142) — single `hourlyRate` per profile,
  independent deductions (percentage of gross, fixed = flat amount), no
  applied-state map.
* `part_001` (second app, line 1809) — rate-list gross, independent
  deductions gated by `appliedDeductions[key] === true`.
* `part_003` — rate-list gross, independent deductions gated by
  `appliedDeductions[key] !== false`, plus `calculateRevenueBreakdown`
  with index-linked client rates.

JavaScript numbers are embedded as `ℚ` (the code never rounds); JS string
keys are `String`; the applied-state object is an association list.  Dates,
descriptions and timestamps play no role in any computation and are omitted.
-/

namespace HoursTrack

/-- Deduction kind, source literal union `'percentage' | 'fixed'`. -/
inductive DedType where
  | percentage
  | fixed
deriving DecidableEq, Repr

/-- Source literal union `'employee' | 'employer' | 'both'` (never consulted
by the calculation, carried for fidelity). -/
inductive AppliesTo where
  | employee
  | employer
  | both
deriving DecidableEq, Repr

/-- HourlyRate of part_002/part_003: `{id, label, rate}`. -/
structure HourlyRate where
  id : String
  label : String
  rate : ℚ
deriving DecidableEq, Repr

/-- Deduction of part_002: `{id, name, amount, type, priority, appliesTo,
recipientProfileId?}`. -/
structure Deduction where
  id : String
  name : String
  amount : ℚ
  type : DedType
  priority : Int
  appliesTo : AppliesTo
  recipientProfileId : Option String
deriving DecidableEq, Repr

/-- Profile of part_002 (calculation-relevant fields). -/
structure Profile where
  id : String
  name : String
  hourlyRates : List HourlyRate
  deductions : List Deduction
deriving Repr

/-- HoursEntry of part_002/part_003 (calculation-relevant fields). -/
structure HoursEntry where
  id : String
  profileId : String
  hourlyRateId : String
  hours : ℚ
deriving Repr

/-- The applied-deductions state: a JS object `Record<string, boolean>`
embedded as an association list, first binding wins. -/
abbrev AppliedMap := List (String × Bool)

/-- Source key expression `` `${profile.id}-${deduction.id}` ``. -/
def dedKey (pid did : String) : String := pid ++ "-" ++ did

/-- Source check `appliedDeductions[deductionKey] !== false` (an absent key
counts as applied). -/
def isAppliedKey (m : AppliedMap) (k : String) : Bool :=
  match m.lookup k with
  | some false => false
  | _ => true

/-- Boolean list-prefix test (needed for the substring test below). -/
def listPrefix [BEq α] : List α → List α → Bool
  | [], _ => true
  | _ :: _, [] => false
  | a :: as, b :: bs => a == b && listPrefix as bs

/-- Boolean list-infix test. -/
def listInfix [BEq α] (needle : List α) : List α → Bool
  | [] => needle.isEmpty
  | b :: bs => listPrefix needle (b :: bs) || listInfix needle bs

/-- JavaScript `s.includes(pat)`: substring containment. -/
def containsSub (s pat : String) : Bool := listInfix pat.data s.data

/-- Stable insertion of a deduction into a priority-sorted list; equal
priorities keep the incoming element in front of none of the existing ones
only when strictly smaller, i.e. it lands after already-placed earlier
elements of the same priority exactly as a stable sort requires. -/
def insertByPriority (d : Deduction) : List Deduction → List Deduction
  | [] => [d]
  | e :: es =>
    if d.priority ≤ e.priority then d :: e :: es else e :: insertByPriority d es

/-- Embedding of `deductions.sort((a, b) => a.priority - b.priority)`:
JavaScript `Array.prototype.sort` is stable (ES2019), and with this
comparator it sorts ascending by `priority`; a stable insertion sort
realises exactly that. -/
def sortDeds : List Deduction → List Deduction
  | [] => []
  | d :: ds => insertByPriority d (sortDeds ds)

/-- Source lines 263–265 of part_002: the first deduction in the (in-place
sorted) array that is applied and whose name contains "Salary". -/
def salaryLookup (sorted : List Deduction) (m : AppliedMap) (pid : String) :
    Option Deduction :=
  sorted.find? fun d => isAppliedKey m (dedKey pid d.id) && containsSub d.name "Salary"

/-- Source lines 272–274 of part_002: the first deduction in the (in-place
sorted) array that is applied and whose name contains "MGMT Fee". -/
def mgmtLookup (sorted : List Deduction) (m : AppliedMap) (pid : String) :
    Option Deduction :=
  sorted.find? fun d => isAppliedKey m (dedKey pid d.id) && containsSub d.name "MGMT Fee"

/-- Source lines 266–269 of part_002: subtract the salary deduction (per-hour
fixed rate × hours) from the running profit-share base, but only when the
looked-up deduction exists and has type 'fixed'. -/
def afterSalary (gross hours : ℚ) : Option Deduction → ℚ
  | some s => if s.type = DedType.fixed then gross - s.amount * hours else gross
  | none => gross

/-- Source lines 275–279 of part_002: subtract the management-fee percentage
from the running profit-share base, but only when the looked-up deduction
exists and has type 'percentage'. -/
def afterMgmt (t : ℚ) : Option Deduction → ℚ
  | some g => if g.type = DedType.percentage then t - t * g.amount / 100 else t
  | none => t

/-- The locally recomputed profit-share base (`tempAmount` in the source):
start from `grossAmount`, apply the salary and management-fee adjustments. -/
def profitBase (gross hours : ℚ) (sal mg : Option Deduction) : ℚ :=
  afterMgmt (afterSalary gross hours sal) mg

/-- Amount contributed by one deduction in part_002's sequential processor
(source lines 254–293): 0 when toggled off; fixed deductions are a per-hour
rate (`deduction.amount * totalHours`); ordinary percentage deductions take
`deduction.amount`% of the running `remainingAmount`; "Profit Share"-named
percentage deductions take their percentage of the locally recomputed base. -/
def dedAmount (sorted : List Deduction) (m : AppliedMap) (pid : String)
    (gross hours remaining : ℚ) (d : Deduction) : ℚ :=
  if isAppliedKey m (dedKey pid d.id) then
    match d.type with
    | DedType.percentage =>
      if containsSub d.name "Profit Share" then
        profitBase gross hours (salaryLookup sorted m pid) (mgmtLookup sorted m pid)
          * d.amount / 100
      else remaining * d.amount / 100
    | DedType.fixed => d.amount * hours
  else 0

/-- Sequential pass over the sorted deductions (source `.map` with the
mutable `remainingAmount`): returns each deduction paired with its computed
amount, together with the final remaining amount.  `sorted` is the full
sorted array (searched by the profit-share lookups), the explicit list
argument is the iteration suffix. -/
def runDeds (sorted : List Deduction) (m : AppliedMap) (pid : String)
    (gross hours : ℚ) : List Deduction → ℚ → List (Deduction × ℚ) × ℚ
  | [], remaining => ([], remaining)
  | d :: ds, remaining =>
    let a := dedAmount sorted m pid gross hours remaining d
    let rest := runDeds sorted m pid gross hours ds (remaining - a)
    ((d, a) :: rest.1, rest.2)

/-- DeductionBreakdown row of part_002:
`{deductionId, deductionName, amount, type, recipient}` where
`recipient = deduction.recipientProfileId || ''`. -/
structure DedItem where
  deductionId : String
  deductionName : String
  amount : ℚ
  type : DedType
  recipient : String
deriving Repr

/-- Breakdown row built from a processed deduction. -/
def toItem (pa : Deduction × ℚ) : DedItem :=
  { deductionId := pa.1.id
    deductionName := pa.1.name
    amount := pa.2
    type := pa.1.type
    recipient := pa.1.recipientProfileId.getD "" }

/-- CalculationResult of part_002. -/
structure CalcResult where
  profileId : String
  profileName : String
  totalHours : ℚ
  grossAmount : ℚ
  totalDeductions : ℚ
  netAmount : ℚ
  deductionBreakdown : List DedItem
  receivedFromOthers : ℚ
deriving Repr

/-- Source `profileHours` reduce followed by `profileHours[profile.id] || 0`:
total hours of the entries belonging to a profile. -/
def hoursFor (entries : List HoursEntry) (pid : String) : ℚ :=
  (entries.filter fun e => e.profileId == pid).foldl (fun a e => a + e.hours) 0

/-- Gross-amount loop shared verbatim by part_002, part_003 and the second
part_001 app: for each entry of the profile resolve `hourlyRateId` against
the rate list and accumulate `hours * rate`; unmatched entries contribute
nothing. -/
def grossFor (rates : List HourlyRate) (entries : List HoursEntry) (pid : String) : ℚ :=
  (entries.filter fun e => e.profileId == pid).foldl
    (fun acc e =>
      match rates.find? (fun r => r.id == e.hourlyRateId) with
      | some r => acc + e.hours * r.rate
      | none => acc) 0

/-- Phase 1 of part_002's `calculateTotals` for one profile (source lines
225–322): gross, sequential deductions, net before transfers. -/
def calcProfile1 (entries : List HoursEntry) (m : AppliedMap) (p : Profile) :
    CalcResult :=
  let totalHours := hoursFor entries p.id
  let gross := grossFor p.hourlyRates entries p.id
  let sorted := sortDeds p.deductions
  let r := runDeds sorted m p.id gross totalHours sorted gross
  { profileId := p.id
    profileName := p.name
    totalHours := totalHours
    grossAmount := gross
    totalDeductions := gross - r.2
    netAmount := r.2
    deductionBreakdown := r.1.map toItem
    receivedFromOthers := 0 }

/-- Phase 1 over all profiles. -/
def phase1Results (profiles : List Profile) (entries : List HoursEntry)
    (m : AppliedMap) : List CalcResult :=
  profiles.map (calcProfile1 entries m)

/-- Phase 2 scan for one result (source lines 326–352): add up the applied
deductions of every *other* profile whose `recipientProfileId` names this
profile, taking each amount from that profile's phase-1 breakdown.  The
deduction arrays were sorted in place during phase 1, hence `sortDeds`. -/
def receivedFromOthersFor (profiles : List Profile) (m : AppliedMap)
    (phase1 : List CalcResult) (res : CalcResult) : ℚ :=
  phase1.foldl
    (fun acc other =>
      if other.profileId == res.profileId then acc
      else
        match profiles.find? (fun p => p.id == other.profileId) with
        | none => acc
        | some op =>
          (sortDeds op.deductions).foldl
            (fun acc2 d =>
              if d.recipientProfileId == some res.profileId then
                if isAppliedKey m (dedKey op.id d.id) then
                  match other.deductionBreakdown.find? (fun it => it.deductionId == d.id) with
                  | some it => acc2 + it.amount
                  | none => acc2
                else acc2
              else acc2)
            acc)
    0

/-- Phase 2 of part_002's `calculateTotals` (source lines 325–359). -/
def phase2Results (profiles : List Profile) (entries : List HoursEntry)
    (m : AppliedMap) : List CalcResult :=
  let p1 := phase1Results profiles entries m
  p1.map fun res =>
    let recv := receivedFromOthersFor profiles m p1 res
    { res with receivedFromOthers := recv, netAmount := res.netAmount + recv }

/-- Aggregate `totalAmount` of part_002 (sum of gross amounts). -/
def totalGross2 (profiles : List Profile) (entries : List HoursEntry)
    (m : AppliedMap) : ℚ :=
  (phase2Results profiles entries m).foldl (fun s r => s + r.grossAmount) 0

/-- Aggregate `totalHours` of part_002. -/
def totalHoursAgg2 (profiles : List Profile) (entries : List HoursEntry)
    (m : AppliedMap) : ℚ :=
  (phase2Results profiles entries m).foldl (fun s r => s + r.totalHours) 0

/-- Aggregate `averageRate` of part_002 with its division-by-zero guard. -/
def averageRate2 (profiles : List Profile) (entries : List HoursEntry)
    (m : AppliedMap) : ℚ :=
  if totalHoursAgg2 profiles entries m > 0 then
    totalGross2 profiles entries m / totalHoursAgg2 profiles entries m
  else 0

/-- Aggregate `totalNetAmount` of part_002 (denominator of the payment
distribution). -/
def totalNet2 (profiles : List Profile) (entries : List HoursEntry)
    (m : AppliedMap) : ℚ :=
  (phase2Results profiles entries m).foldl (fun s r => s + r.netAmount) 0

/-- PaymentDistribution row. -/
structure PayDist where
  profileId : String
  profileName : String
  amount : ℚ
  percentage : ℚ
deriving Repr

/-- Payment distribution of part_002 (source lines 375–381): percentage of
each profile's net amount in the total net, guarded by `totalNetAmount > 0`. -/
def paymentDistribution2 (profiles : List Profile) (entries : List HoursEntry)
    (m : AppliedMap) : List PayDist :=
  let tn := totalNet2 profiles entries m
  (phase2Results profiles entries m).map fun r =>
    { profileId := r.profileId
      profileName := r.profileName
      amount := r.netAmount
      percentage := if tn > 0 then r.netAmount / tn * 100 else 0 }

/-- Source lines 181–196 of part_002 (identically lines 1636–1657 of
part_001): when profiles change, every `(profile, deduction)` key not yet in
the applied-state map is recorded as `true` ("Default to applied"). -/
def initializeApplied (profiles : List Profile) (m : AppliedMap) : AppliedMap :=
  profiles.foldl
    (fun acc p =>
      p.deductions.foldl
        (fun acc2 d =>
          match acc2.lookup (dedKey p.id d.id) with
          | none => acc2 ++ [(dedKey p.id d.id, true)]
          | some _ => acc2)
        acc)
    m

/-! Embedding of the first part_001 app (`calculateTotals` at line 142):
single `hourlyRate` per profile, no applied-state map, independent
deductions (percentage of gross, fixed = flat amount). -/

/-- Deduction of part_001 (both apps) and part_003 (plus `appliesTo`,
calculation-irrelevant): `{id, name, amount, type, priority}`. -/
structure Ded001 where
  id : String
  name : String
  amount : ℚ
  type : DedType
  priority : Int
deriving DecidableEq, Repr

/-- Profile of the first part_001 app (calculation-relevant fields). -/
structure Profile001 where
  id : String
  name : String
  hourlyRate : ℚ
  deductions : List Ded001
deriving Repr

/-- HoursEntry of the first part_001 app (no `hourlyRateId`). -/
structure Entry001 where
  id : String
  profileId : String
  hours : ℚ
deriving Repr

/-- Stable insertion for `Ded001`, as `insertByPriority`. -/
def insertByPriority001 (d : Ded001) : List Ded001 → List Ded001
  | [] => [d]
  | e :: es =>
    if d.priority ≤ e.priority then d :: e :: es else e :: insertByPriority001 d es

/-- Stable ascending priority sort for `Ded001`. -/
def sortDeds001 : List Ded001 → List Ded001
  | [] => []
  | d :: ds => insertByPriority001 d (sortDeds001 ds)

/-- Amount of one deduction in the first part_001 app (source lines
162–164): percentage of gross, or the flat fixed amount; no applied gate. -/
def dedAmount001 (gross : ℚ) (d : Ded001) : ℚ :=
  match d.type with
  | DedType.percentage => gross * d.amount / 100
  | DedType.fixed => d.amount

/-- CalculationResult of the first part_001 app. -/
structure CalcResult001 where
  profileId : String
  profileName : String
  totalHours : ℚ
  grossAmount : ℚ
  totalDeductions : ℚ
  netAmount : ℚ
  amounts : List ℚ
deriving Repr

/-- Hours of a profile in the first part_001 app. -/
def hoursFor001 (entries : List Entry001) (pid : String) : ℚ :=
  (entries.filter fun e => e.profileId == pid).foldl (fun a e => a + e.hours) 0

/-- Per-profile result of the first part_001 app (source lines 153–183):
`grossAmount = totalHours * profile.hourlyRate`, independent deductions. -/
def calcProfile001 (entries : List Entry001) (p : Profile001) : CalcResult001 :=
  let totalHours := hoursFor001 entries p.id
  let gross := totalHours * p.hourlyRate
  let amounts := (sortDeds001 p.deductions).map (dedAmount001 gross)
  let td := amounts.foldl (· + ·) 0
  { profileId := p.id
    profileName := p.name
    totalHours := totalHours
    grossAmount := gross
    totalDeductions := td
    netAmount := gross - td
    amounts := amounts }

/-- Aggregate `totalAmount` of the first part_001 app: sum of gross
amounts (also the denominator of its payment distribution). -/
def totalAmount001 (profiles : List Profile001) (entries : List Entry001) : ℚ :=
  (profiles.map (calcProfile001 entries)).foldl (fun s r => s + r.grossAmount) 0

/-- Payment distribution of the first part_001 app (source lines 199–204):
the percentage divides each profile's **net** amount by the total **gross**
amount `totalAmount`, guarded by `totalAmount > 0`. -/
def paymentDistribution001 (profiles : List Profile001) (entries : List Entry001) :
    List PayDist :=
  let ta := totalAmount001 profiles entries
  (profiles.map (calcProfile001 entries)).map fun r =>
    { profileId := r.profileId
      profileName := r.profileName
      amount := r.netAmount
      percentage := if ta > 0 then r.netAmount / ta * 100 else 0 }

/-! Embedding of the second part_001 app (`calculateTotals` at line 1809):
rate-list gross, independent deductions gated by
`appliedDeductions[deductionKey] === true`. -/

/-- Profile of the second part_001 app (calculation-relevant fields;
`clientRates` and `profitDistributions` only feed the revenue breakdown). -/
structure Profile001b where
  id : String
  name : String
  hourlyRates : List HourlyRate
  deductions : List Ded001
deriving Repr

/-- Source check `appliedDeductions[deductionKey] === true` of the second
part_001 app (line 1843): an absent key counts as NOT applied. -/
def isAppliedTrue (m : AppliedMap) (k : String) : Bool :=
  match m.lookup k with
  | some true => true
  | _ => false

/-- Amount of one deduction in the second part_001 app (source lines
1845–1849): gated by `=== true`; percentage of gross, fixed = flat amount. -/
def dedAmount001b (m : AppliedMap) (pid : String) (gross : ℚ) (d : Ded001) : ℚ :=
  if isAppliedTrue m (dedKey pid d.id) then
    match d.type with
    | DedType.percentage => gross * d.amount / 100
    | DedType.fixed => d.amount
  else 0

/-- Per-profile result of the second part_001 app (source lines 1820–1877),
without the revenue breakdown (which does not feed these fields). -/
def calcProfile001b (entries : List HoursEntry) (m : AppliedMap) (p : Profile001b) :
    CalcResult001 :=
  let totalHours := hoursFor entries p.id
  let gross := grossFor p.hourlyRates entries p.id
  let amounts := (sortDeds001 p.deductions).map (dedAmount001b m p.id gross)
  let td := amounts.foldl (· + ·) 0
  { profileId := p.id
    profileName := p.name
    totalHours := totalHours
    grossAmount := gross
    totalDeductions := td
    netAmount := gross - td
    amounts := amounts }

/-! Embedding of part_003: independent deductions gated by `!== false`,
plus `calculateRevenueBreakdown` with index-linked client rates. -/

/-- ClientRate of part_003: `{id, label, rate, employeeRateId}` where
`employeeRateId` stores a stringified index into `hourlyRates`. -/
structure ClientRate where
  id : String
  label : String
  rate : ℚ
  employeeRateId : String
deriving DecidableEq, Repr

/-- ProfitDistribution kind of part_003: `'margin' | 'profit_share'`. -/
inductive PDType where
  | margin
  | profit_share
deriving DecidableEq, Repr

/-- ProfitDistribution of part_003: `{id, name, percentage, type}`. -/
structure ProfitDist where
  id : String
  name : String
  percentage : ℚ
  type : PDType
deriving Repr

/-- Profile of part_003 (calculation-relevant fields). -/
structure Profile003 where
  id : String
  name : String
  hourlyRates : List HourlyRate
  clientRates : List ClientRate
  profitDistributions : List ProfitDist
  deductions : List Ded001
deriving Repr

/-- Profit-distribution row of part_003's revenue breakdown. -/
structure PDItem where
  name : String
  amount : ℚ
  percentage : ℚ
deriving Repr

/-- RevenueBreakdown of part_003. -/
structure RevenueBreakdown where
  clientPayment : ℚ
  employeePayment : ℚ
  profitMargin : ℚ
  profitDistribution : List PDItem
deriving Repr

/-- Source line 238 of part_003: `hourlyRates.findIndex(hr => hr.id ===
hourlyRate.id).toString()`, with JavaScript's `-1` for a missing index. -/
def rateIndexStr (rates : List HourlyRate) (rid : String) : String :=
  match rates.findIdx? (fun hr => hr.id == rid) with
  | some i => toString i
  | none => "-1"

/-- Client-payment loop of part_003's `calculateRevenueBreakdown` (source
lines 230–249): per entry, resolve the hourly rate; find the client rate
whose `employeeRateId` equals the stringified index of that hourly rate;
accumulate `hours * clientRate.rate`, or `hours * hourlyRate.rate * 2`
when no client rate matches.  Entries with unresolvable rate ids
contribute nothing. -/
def clientPaymentLoop (p : Profile003) (entries : List HoursEntry) : ℚ :=
  entries.foldl
    (fun cp e =>
      match p.hourlyRates.find? (fun r => r.id == e.hourlyRateId) with
      | none => cp
      | some hr =>
        match p.clientRates.find?
            (fun cr => cr.employeeRateId == rateIndexStr p.hourlyRates hr.id) with
        | some cr => cp + e.hours * cr.rate
        | none => cp + e.hours * hr.rate * 2)
    0

/-- part_003's `calculateRevenueBreakdown` (source lines 228–283).  The
entry loop runs first; if the accumulated client payment is still 0 the
whole-profile fallback `employeePayment * 2` applies; the margin is the
difference; profit distributions take their percentage of the employee
payment ('margin') or of the margin ('profit_share'). -/
def calcRevenueBreakdown003 (p : Profile003) (entries : List HoursEntry)
    (employeePayment : ℚ) : RevenueBreakdown :=
  let cp0 := clientPaymentLoop p entries
  let clientPayment := if cp0 = 0 then employeePayment * 2 else cp0
  let profitMargin := clientPayment - employeePayment
  { clientPayment := clientPayment
    employeePayment := employeePayment
    profitMargin := profitMargin
    profitDistribution :=
      p.profitDistributions.map fun dist =>
        { name := dist.name
          amount :=
            match dist.type with
            | PDType.margin => employeePayment * dist.percentage / 100
            | PDType.profit_share => profitMargin * dist.percentage / 100
          percentage := dist.percentage } }

/-- Amount of one deduction in part_003 (source lines 314–321): gated by
`!== false`; percentage of gross, fixed = flat amount. -/
def dedAmount003 (m : AppliedMap) (pid : String) (gross : ℚ) (d : Ded001) : ℚ :=
  if isAppliedKey m (dedKey pid d.id) then
    match d.type with
    | DedType.percentage => gross * d.amount / 100
    | DedType.fixed => d.amount
  else 0

/-- CalculationResult of part_003 (fields used by its aggregates). -/
structure CalcResult003 where
  profileId : String
  profileName : String
  totalHours : ℚ
  grossAmount : ℚ
  totalDeductions : ℚ
  netAmount : ℚ
  revenueClientPayment : ℚ
deriving Repr

/-- Per-profile result of part_003's `calculateTotals` (source lines
296–345). -/
def calcProfile003 (entries : List HoursEntry) (m : AppliedMap) (p : Profile003) :
    CalcResult003 :=
  let totalHours := hoursFor entries p.id
  let gross := grossFor p.hourlyRates entries p.id
  let amounts := (sortDeds001 p.deductions).map (dedAmount003 m p.id gross)
  let td := amounts.foldl (· + ·) 0
  let rb := calcRevenueBreakdown003 p (entries.filter fun e => e.profileId == p.id) gross
  { profileId := p.id
    profileName := p.name
    totalHours := totalHours
    grossAmount := gross
    totalDeductions := td
    netAmount := gross - td
    revenueClientPayment := rb.clientPayment }

/-- Aggregate `totalClientPayment` of part_003 (source lines 350): sum of
the revenue breakdowns' client payments. -/
def totalClientPayment003 (profiles : List Profile003) (entries : List HoursEntry)
    (m : AppliedMap) : ℚ :=
  (profiles.map (calcProfile003 entries m)).foldl
    (fun s r => s + r.revenueClientPayment) 0

/-- Payment distribution of part_003 (source lines 361–366): the percentage
divides each profile's **net** amount by the total **client payment**,
guarded by `totalClientPayment > 0`. -/
def paymentDistribution003 (profiles : List Profile003) (entries : List HoursEntry)
    (m : AppliedMap) : List PayDist :=
  let tc := totalClientPayment003 profiles entries m
  (profiles.map (calcProfile003 entries m)).map fun r =>
    { profileId := r.profileId
      profileName := r.profileName
      amount := r.netAmount
      percentage := if tc > 0 then r.netAmount / tc * 100 else 0 }

/-- Deductions paired with their sequentially computed amounts, for one
profile of part_002 (the data behind `calcProfile1`'s breakdown). -/
def pairsOf (entries : List HoursEntry) (m : AppliedMap) (p : Profile) :
    List (Deduction × ℚ) :=
  (runDeds (sortDeds p.deductions) m p.id (grossFor p.hourlyRates entries p.id)
    (hoursFor entries p.id) (sortDeds p.deductions)
    (grossFor p.hourlyRates entries p.id)).1

/-- A deduction's recipient is valid when it names an existing profile other
than the deducting one; only such amounts are picked up by phase 2. -/
def hasValidRecipient (profiles : List Profile) (oid : String) (d : Deduction) : Bool :=
  match d.recipientProfileId with
  | none => false
  | some r => !(r == oid) && (profiles.map Profile.id).contains r

/-- Total of the applied deduction amounts that no valid recipient picks up
(the "self-retained" money of the conservation invariant). -/
def lostSum (profiles : List Profile) (entries : List HoursEntry) (m : AppliedMap) : ℚ :=
  (profiles.map fun p =>
    ((pairsOf entries m p).map fun pa =>
      if hasValidRecipient profiles p.id pa.1 then 0 else pa.2).sum).sum

/-- No entry of the given list resolves to a configured client rate of the
profile (the hypothesis of the ×2 fallback claim). -/
def noClientRateMatch (p : Profile003) (entries : List HoursEntry) : Bool :=
  entries.all fun e =>
    match p.hourlyRates.find? (fun r => r.id == e.hourlyRateId) with
    | none => true
    | some hr =>
      (p.clientRates.find?
        (fun cr => cr.employeeRateId == rateIndexStr p.hourlyRates hr.id)).isNone

/-! Concrete inputs used by the claim theorems and witnesses. -/

/-- Scenario E profile for part_003: worker rate 25/hr, no client rates. -/
def scenEProfile : Profile003 :=
  { id := "pe", name := "E"
    hourlyRates := [{ id := "r1", label := "Worker", rate := 25 }]
    clientRates := []
    profitDistributions := []
    deductions := [] }

/-- Scenario E entry: 4 hours at the worker rate. -/
def scenEEntry : HoursEntry :=
  { id := "e1", profileId := "pe", hourlyRateId := "r1", hours := 4 }

/-- Scenario C profile: one rate of 10, a priority-0 fixed deduction of 2 per
hour and a priority-1 percentage deduction of 10%. -/
def scenCProfile : Profile :=
  { id := "p1", name := "C"
    hourlyRates := [{ id := "r1", label := "Standard", rate := 10 }]
    deductions :=
      [{ id := "d1", name := "PerHour", amount := 2, type := DedType.fixed, priority := 0,
         appliesTo := AppliesTo.employee, recipientProfileId := none },
       { id := "d2", name := "Percent", amount := 10, type := DedType.percentage,
         priority := 1, appliesTo := AppliesTo.employee, recipientProfileId := none }] }

/-- Scenario C entry: 10 hours at the rate of 10. -/
def scenCEntry : HoursEntry :=
  { id := "e1", profileId := "p1", hourlyRateId := "r1", hours := 10 }

/-- Witness deduction: an applied fixed "Salary" deduction. -/
def wSalary : Deduction :=
  { id := "s1", name := "Salary", amount := 5, type := DedType.fixed, priority := 0,
    appliesTo := AppliesTo.employee, recipientProfileId := none }

/-- Witness deduction: an applied percentage "MGMT Fee" deduction. -/
def wMgmt : Deduction :=
  { id := "s2", name := "MGMT Fee", amount := 10, type := DedType.percentage, priority := 1,
    appliesTo := AppliesTo.employee, recipientProfileId := none }

/-- Witness deduction: an applied percentage "Profit Share" deduction. -/
def wProfit : Deduction :=
  { id := "s3", name := "Profit Share", amount := 20, type := DedType.percentage,
    priority := 2, appliesTo := AppliesTo.employee, recipientProfileId := none }

/-- Transfer witness: profile A deducts 3/hr with recipient B. -/
def wProfileA : Profile :=
  { id := "A", name := "A"
    hourlyRates := [{ id := "r", label := "S", rate := 10 }]
    deductions :=
      [{ id := "dA", name := "ToB", amount := 3, type := DedType.fixed, priority := 0,
         appliesTo := AppliesTo.employee, recipientProfileId := some "B" }] }

/-- Transfer witness: profile B, no own activity. -/
def wProfileB : Profile :=
  { id := "B", name := "B", hourlyRates := [], deductions := [] }

/-- Transfer witness entry: 5 hours for A (gross 50, transfer 15). -/
def wEntryA : HoursEntry :=
  { id := "eA", profileId := "A", hourlyRateId := "r", hours := 5 }

/-- Deductions with priorities [2, 0, 1] (input order). -/
def prio201Deds : List Deduction :=
  [{ id := "a", name := "A", amount := 1, type := DedType.fixed, priority := 2,
     appliesTo := AppliesTo.employee, recipientProfileId := none },
   { id := "b", name := "B", amount := 1, type := DedType.fixed, priority := 0,
     appliesTo := AppliesTo.employee, recipientProfileId := none },
   { id := "c", name := "C", amount := 1, type := DedType.fixed, priority := 1,
     appliesTo := AppliesTo.employee, recipientProfileId := none }]

/-- Counterexample profile for the first part_001 app: Alice, rate 20, one
always-applied flat fixed deduction of 10. -/
def c7Profile : Profile001 :=
  { id := "a1", name := "Alice", hourlyRate := 20
    deductions :=
      [{ id := "d1", name := "Tax", amount := 10, type := DedType.fixed, priority := 0 }] }

/-- Counterexample entry: 2 hours for Alice. -/
def c7Entry : Entry001 := { id := "e1", profileId := "a1", hours := 2 }

/-- Counterexample profile for the second part_001 app: rate 20, one
percentage deduction of 10% that is never toggled. -/
def c9Profile : Profile001b :=
  { id := "p1", name := "A"
    hourlyRates := [{ id := "r1", label := "Std", rate := 20 }]
    deductions :=
      [{ id := "d1", name := "Tax", amount := 10, type := DedType.percentage,
         priority := 0 }] }

/-- Counterexample entry: 2 hours at rate 20 (gross 40). -/
def c9Entry : HoursEntry :=
  { id := "e1", profileId := "p1", hourlyRateId := "r1", hours := 2 }

/-! General helper lemmas. -/

theorem foldl_add_eq {α : Type} (f : α → ℚ) :
    ∀ (l : List α) (a : ℚ), l.foldl (fun s x => s + f x) a = a + (l.map f).sum
  | [], a => by simp
  | x :: xs, a => by
    simpa [foldl_add_eq f xs (a + f x)] using by ring

theorem sum_map_add {α : Type} (f g : α → ℚ) :
    ∀ l : List α, (l.map fun x => f x + g x).sum = (l.map f).sum + (l.map g).sum
  | [] => by simp
  | x :: xs => by
    simpa [sum_map_add f g xs] using by ring

theorem sum_map_swap {α β : Type} (f : α → β → ℚ) :
    ∀ (l₁ : List α) (l₂ : List β),
      (l₁.map fun x => (l₂.map fun y => f x y).sum).sum =
        (l₂.map fun y => (l₁.map fun x => f x y).sum).sum
  | [], l₂ => by simp
  | x :: xs, l₂ => by
    simp [sum_map_swap f xs l₂, sum_map_add (fun y => f x y)
      (fun y => (xs.map fun x => f x y).sum) l₂]

theorem find?_key_self {α : Type} (key : α → String) :
    ∀ (l : List α) (q : α), (l.map key).Nodup → q ∈ l →
      l.find? (fun x => key x == key q) = some q
  | [], q, _, hq => by cases hq
  | x :: xs, q, hnd, hq => by
    have hnd' := hnd
    rw [List.map_cons] at hnd'
    rcases List.nodup_cons.mp hnd' with ⟨hx, hxs⟩
    rcases List.mem_cons.mp hq with h | h
    · subst h
      simp [List.find?]
    · have hne : key x ≠ key q := by
        intro he
        exact hx (he ▸ List.mem_map_of_mem key h)
      simp only [List.find?]
      rw [show (key x == key q) = false by simpa using hne]
      exact find?_key_self key xs q hxs h

theorem sum_map_if_key {α : Type} (key : α → String) (r : String) (c : ℚ) :
    ∀ l : List α, (l.map key).Nodup →
      (l.map fun x => if key x = r then c else 0).sum =
        if r ∈ l.map key then c else 0
  | [], _ => by simp
  | x :: xs, hnd => by
    have hnd' := hnd
    rw [List.map_cons] at hnd'
    rcases List.nodup_cons.mp hnd' with ⟨hx, hxs⟩
    rw [List.map_cons, List.sum_cons, sum_map_if_key key r c xs hxs, List.map_cons]
    by_cases hk : key x = r
    · subst hk
      rw [if_pos rfl, if_neg hx, if_pos (List.mem_cons_self _ _)]
      ring
    · rw [if_neg hk]
      by_cases hr : r ∈ xs.map key
      · rw [if_pos hr, if_pos (List.mem_cons_of_mem _ hr)]
        ring
      · rw [if_neg hr, if_neg ?_]
        · ring
        · intro hmem
          rcases List.mem_cons.mp hmem with h | h
          · exact hk h.symm
          · exact hr h

/-! Properties of the stable priority sort. -/

theorem insertByPriority_perm (d : Deduction) :
    ∀ l : List Deduction, List.Perm (insertByPriority d l) (d :: l)
  | [] => List.Perm.refl _
  | e :: es => by
    by_cases h : d.priority ≤ e.priority
    · simp [insertByPriority, h]
    · simp only [insertByPriority, if_neg h]
      exact ((insertByPriority_perm d es).cons e).trans (List.Perm.swap d e es)

theorem sortDeds_perm : ∀ l : List Deduction, List.Perm (sortDeds l) l
  | [] => List.Perm.refl _
  | d :: ds =>
    (insertByPriority_perm d (sortDeds ds)).trans ((sortDeds_perm ds).cons d)

theorem insertByPriority_pairwise (d : Deduction) :
    ∀ l : List Deduction, l.Pairwise (fun a b => a.priority ≤ b.priority) →
      (insertByPriority d l).Pairwise (fun a b => a.priority ≤ b.priority)
  | [], _ => by simp [insertByPriority]
  | e :: es, h => by
    rcases List.pairwise_cons.mp h with ⟨he, hes⟩
    by_cases hde : d.priority ≤ e.priority
    · rw [insertByPriority, if_pos hde]
      refine List.pairwise_cons.mpr ⟨?_, h⟩
      intro x hx
      rcases List.mem_cons.mp hx with rfl | hx
      · exact hde
      · exact le_trans hde (he x hx)
    · rw [insertByPriority, if_neg hde]
      refine List.pairwise_cons.mpr ⟨?_, insertByPriority_pairwise d es hes⟩
      intro x hx
      rcases List.mem_cons.mp ((insertByPriority_perm d es).mem_iff.mp hx) with rfl | hx
      · exact le_of_lt (lt_of_not_le hde)
      · exact he x hx

theorem sortDeds_pairwise :
    ∀ l : List Deduction, (sortDeds l).Pairwise (fun a b => a.priority ≤ b.priority)
  | [] => List.Pairwise.nil
  | d :: ds => insertByPriority_pairwise d (sortDeds ds) (sortDeds_pairwise ds)

theorem filter_insertByPriority (d : Deduction) (pr : Int) :
    ∀ l : List Deduction,
      (insertByPriority d l).filter (fun x => x.priority == pr) =
        if d.priority = pr then d :: l.filter (fun x => x.priority == pr)
        else l.filter (fun x => x.priority == pr)
  | [] => by
    rw [insertByPriority, List.filter_cons, List.filter_nil]
    by_cases h : d.priority = pr
    · rw [if_pos h, show (d.priority == pr) = true by simpa using h]
      simp
    · rw [if_neg h, show (d.priority == pr) = false by simpa using h]
      simp
  | e :: es => by
    by_cases hde : d.priority ≤ e.priority
    · rw [insertByPriority, if_pos hde, List.filter_cons]
      by_cases h : d.priority = pr
      · rw [if_pos h, show (d.priority == pr) = true by simpa using h]
        simp
      · rw [if_neg h, show (d.priority == pr) = false by simpa using h]
        simp
    · have hlt : e.priority < d.priority := lt_of_not_le hde
      rw [insertByPriority, if_neg hde, List.filter_cons, List.filter_cons,
        filter_insertByPriority d pr es]
      by_cases h : d.priority = pr
      · have hep : (e.priority == pr) = false := by
          refine beq_eq_false_iff_ne.mpr ?_
          intro he
          exact absurd (h ▸ he : e.priority = d.priority) (ne_of_lt hlt)
        rw [if_pos h, hep]
        simp [h]
      · rw [if_neg h]
        by_cases hep : e.priority = pr
        · rw [show (e.priority == pr) = true by simpa using hep]
          simp [h]
        · rw [show (e.priority == pr) = false by simpa using hep]
          simp [h]

theorem sortDeds_filter (pr : Int) :
    ∀ l : List Deduction,
      (sortDeds l).filter (fun x => x.priority == pr) =
        l.filter (fun x => x.priority == pr)
  | [] => rfl
  | d :: ds => by
    rw [sortDeds, filter_insertByPriority d pr, sortDeds_filter pr ds, List.filter_cons]
    by_cases h : d.priority = pr
    · rw [if_pos h, show (d.priority == pr) = true by simpa using h]
      simp
    · rw [if_neg h, show (d.priority == pr) = false by simpa using h]
      simp

/-! Properties of the sequential deduction pass. -/

theorem runDeds_fst_map_fst (sorted : List Deduction) (m : AppliedMap) (pid : String)
    (gross hours : ℚ) :
    ∀ (l : List Deduction) (r : ℚ),
      ((runDeds sorted m pid gross hours l r).1).map Prod.fst = l
  | [], _ => rfl
  | d :: ds, r => by
    simp [runDeds, runDeds_fst_map_fst sorted m pid gross hours ds]

theorem runDeds_snd (sorted : List Deduction) (m : AppliedMap) (pid : String)
    (gross hours : ℚ) :
    ∀ (l : List Deduction) (r : ℚ),
      (runDeds sorted m pid gross hours l r).2 =
        r - (((runDeds sorted m pid gross hours l r).1).map Prod.snd).sum
  | [], r => by simp [runDeds]
  | d :: ds, r => by
    simp only [runDeds, List.map_cons, List.sum_cons]
    rw [runDeds_snd sorted m pid gross hours ds]
    ring

theorem runDeds_amount_zero_of_not_applied (sorted : List Deduction) (m : AppliedMap)
    (pid : String) (gross hours : ℚ) :
    ∀ (l : List Deduction) (r : ℚ) (pa : Deduction × ℚ),
      pa ∈ (runDeds sorted m pid gross hours l r).1 →
      isAppliedKey m (dedKey pid pa.1.id) = false → pa.2 = 0
  | [], r, pa, hpa, _ => by simp [runDeds] at hpa
  | d :: ds, r, pa, hpa, hna => by
    simp only [runDeds, List.mem_cons] at hpa
    rcases hpa with rfl | hpa
    · simp only [dedAmount, hna]
      simp
    · exact runDeds_amount_zero_of_not_applied sorted m pid gross hours ds _ pa hpa hna

/-- The gross loop equals the sum, over the profile's entries, of
`hours × resolved rate`, unmatched entries contributing zero. -/
theorem grossFor_eq_sum (rates : List HourlyRate) (entries : List HoursEntry) (pid : String) :
    grossFor rates entries pid =
      ((entries.filter fun e => e.profileId == pid).map fun e =>
        match rates.find? (fun r => r.id == e.hourlyRateId) with
        | some r => e.hours * r.rate
        | none => 0).sum := by
  rw [grossFor, List.foldl_ext _ (fun acc e => acc +
      match rates.find? (fun r => r.id == e.hourlyRateId) with
      | some r => e.hours * r.rate
      | none => 0)]
  · rw [foldl_add_eq]
    ring
  · intro a e _
    cases rates.find? (fun r => r.id == e.hourlyRateId) <;> simp

/-! Claim theorems. -/

/-- C1: in part_002's sequential mode an applied fixed deduction contributes
`deduction.amount × totalHours` (a per-hour rate), an applied ordinary
percentage deduction contributes `remainingAmount × deduction.amount / 100`
at the time it is processed, each is subtracted from the running remaining
amount, and Scenario C (10 hours at rate 10, priority-0 fixed 2/hr,
priority-1 percentage 10%) yields gross 100, amounts 20 and 8, and net 72. -/
theorem C1_sequential_deduction_amounts :
    (∀ (sorted : List Deduction) (m : AppliedMap) (pid : String)
        (gross hours remaining : ℚ) (d : Deduction),
        isAppliedKey m (dedKey pid d.id) = true →
        d.type = DedType.fixed →
        dedAmount sorted m pid gross hours remaining d = d.amount * hours) ∧
    (∀ (sorted : List Deduction) (m : AppliedMap) (pid : String)
        (gross hours remaining : ℚ) (d : Deduction),
        isAppliedKey m (dedKey pid d.id) = true →
        d.type = DedType.percentage →
        containsSub d.name "Profit Share" = false →
        dedAmount sorted m pid gross hours remaining d = remaining * d.amount / 100) ∧
    (∀ (sorted : List Deduction) (m : AppliedMap) (pid : String)
        (gross hours remaining : ℚ) (d : Deduction) (ds : List Deduction),
        (runDeds sorted m pid gross hours (d :: ds) remaining).2 =
          (runDeds sorted m pid gross hours ds
            (remaining - dedAmount sorted m pid gross hours remaining d)).2) ∧
    ((calcProfile1 [scenCEntry] [] scenCProfile).grossAmount = 100 ∧
      (calcProfile1 [scenCEntry] [] scenCProfile).deductionBreakdown.map DedItem.amount
        = [20, 8] ∧
      (calcProfile1 [scenCEntry] [] scenCProfile).netAmount = 72) := by
  refine ⟨?_, ?_, ?_, ?_⟩
  · intro sorted m pid gross hours remaining d happ hty
    rw [dedAmount, if_pos happ, hty]
  · intro sorted m pid gross hours remaining d happ hty hname
    rw [dedAmount, if_pos happ, hty]
    simp [hname]
  · intro sorted m pid gross hours remaining d ds
    simp [runDeds]
  · refine ⟨?_, ?_, ?_⟩ <;>
      norm_num [calcProfile1, hoursFor, grossFor, runDeds, dedAmount, isAppliedKey, dedKey,
        sortDeds, insertByPriority, containsSub, listInfix, listPrefix, salaryLookup,
        mgmtLookup, profitBase, afterSalary, afterMgmt, toItem, List.find?, List.filter,
        List.lookup, scenCProfile, scenCEntry, String.reduceBEq]

/-- C1 witness: the fixed and ordinary-percentage hypotheses are satisfiable
(an empty applied map means applied; concrete amounts follow the formulas). -/
theorem C1_sequential_deduction_amounts_witness :
    dedAmount [] [] "p" 0 3 50
      { id := "d", name := "F", amount := 2, type := DedType.fixed, priority := 0,
        appliesTo := AppliesTo.employee, recipientProfileId := none } = 2 * 3 ∧
    dedAmount [] [] "p" 0 3 50
      { id := "d", name := "P", amount := 10, type := DedType.percentage, priority := 0,
        appliesTo := AppliesTo.employee, recipientProfileId := none } = 50 * 10 / 100 :=
  ⟨C1_sequential_deduction_amounts.1 [] [] "p" 0 3 50 _ (by decide) rfl,
   C1_sequential_deduction_amounts.2.1 [] [] "p" 0 3 50 _ (by decide) rfl (by decide)⟩

/-- C2: in part_002's sequential mode, an applied percentage deduction whose
name contains "Profit Share" takes its percentage of a locally recomputed
base — gross minus the applied fixed "Salary" deduction times hours, minus
the applied percentage "MGMT Fee" deduction's percentage of that
intermediate value — and the result is subtracted from the shared running
remaining amount. -/
theorem C2_profit_share_locally_recomputed :
    ∀ (sorted : List Deduction) (m : AppliedMap) (pid : String)
      (gross hours remaining : ℚ) (d s g : Deduction) (ds : List Deduction),
      isAppliedKey m (dedKey pid d.id) = true →
      d.type = DedType.percentage →
      containsSub d.name "Profit Share" = true →
      salaryLookup sorted m pid = some s →
      s.type = DedType.fixed →
      mgmtLookup sorted m pid = some g →
      g.type = DedType.percentage →
      dedAmount sorted m pid gross hours remaining d =
        ((gross - s.amount * hours) -
          (gross - s.amount * hours) * g.amount / 100) * d.amount / 100 ∧
      (runDeds sorted m pid gross hours (d :: ds) remaining).2 =
        (runDeds sorted m pid gross hours ds
          (remaining - dedAmount sorted m pid gross hours remaining d)).2 := by
  intro sorted m pid gross hours remaining d s g ds happ hty hname hsal hstype hmg hgtype
  constructor
  · rw [dedAmount, if_pos happ, hty]
    simp only [hname, if_pos]
    rw [profitBase, hsal, hmg, afterSalary, if_pos hstype, afterMgmt, if_pos hgtype]
  · simp [runDeds]

/-- C2 witness: on the concrete sorted list [Salary 5/hr, MGMT Fee 10%,
Profit Share 20%] with an empty applied map, 10 hours and gross 100, the
profit-share amount is 20% of (100 − 50 − 5) = 9, subtracted from the
running remaining amount. -/
theorem C2_profit_share_locally_recomputed_witness :
    dedAmount [wSalary, wMgmt, wProfit] [] "p" 100 10 37 wProfit =
      ((100 - wSalary.amount * 10) -
        (100 - wSalary.amount * 10) * wMgmt.amount / 100) * wProfit.amount / 100 ∧
    (runDeds [wSalary, wMgmt, wProfit] [] "p" 100 10 [wProfit] 37).2 =
      (runDeds [wSalary, wMgmt, wProfit] [] "p" 100 10 []
        (37 - dedAmount [wSalary, wMgmt, wProfit] [] "p" 100 10 37 wProfit)).2 :=
  C2_profit_share_locally_recomputed [wSalary, wMgmt, wProfit] [] "p" 100 10 37
    wProfit wSalary wMgmt [] (by decide) rfl (by decide) (by decide) rfl (by decide) rfl

/-- C10: the profit-share base consults only the first applied "Salary"
match and the first applied "MGMT Fee" match of the sorted deduction array —
once both lookups succeed, appending any further deductions changes neither
lookup nor any computed amount — and a first match of the wrong type
(percentage "Salary", fixed "MGMT Fee") contributes nothing to the base. -/
theorem C10_profit_share_first_match_only :
    (∀ (sorted l₂ : List Deduction) (m : AppliedMap) (pid : String),
        (salaryLookup sorted m pid).isSome →
        (mgmtLookup sorted m pid).isSome →
        salaryLookup (sorted ++ l₂) m pid = salaryLookup sorted m pid ∧
        mgmtLookup (sorted ++ l₂) m pid = mgmtLookup sorted m pid ∧
        ∀ (gross hours remaining : ℚ) (d : Deduction),
          dedAmount (sorted ++ l₂) m pid gross hours remaining d =
            dedAmount sorted m pid gross hours remaining d) ∧
    (∀ (gross hours : ℚ) (s : Deduction) (mg : Option Deduction),
        s.type = DedType.percentage →
        profitBase gross hours (some s) mg = profitBase gross hours none mg) ∧
    (∀ (gross hours : ℚ) (sal : Option Deduction) (g : Deduction),
        g.type = DedType.fixed →
        profitBase gross hours sal (some g) = profitBase gross hours sal none) := by
  refine ⟨?_, ?_, ?_⟩
  · intro sorted l₂ m pid hsal hmg
    obtain ⟨s, hs⟩ := Option.isSome_iff_exists.mp hsal
    obtain ⟨g, hg⟩ := Option.isSome_iff_exists.mp hmg
    have hsal' : salaryLookup (sorted ++ l₂) m pid = salaryLookup sorted m pid := by
      simp only [salaryLookup] at hs ⊢
      rw [List.find?_append, hs]
      rfl
    have hmg' : mgmtLookup (sorted ++ l₂) m pid = mgmtLookup sorted m pid := by
      simp only [mgmtLookup] at hg ⊢
      rw [List.find?_append, hg]
      rfl
    refine ⟨hsal', hmg', ?_⟩
    intro gross hours remaining d
    rw [dedAmount, dedAmount, hsal', hmg']
  · intro gross hours s mg hty
    simp only [profitBase, afterSalary, hty]
    simp
  · intro gross hours sal g hty
    simp only [profitBase, afterMgmt, hty]
    simp

/-- C10 witness: with both lookups succeeding on [Salary, MGMT Fee, Profit
Share], appending a second "Salary"-named deduction changes nothing, and the
wrong-type facts hold at concrete deductions. -/
theorem C10_profit_share_first_match_only_witness :
    salaryLookup ([wSalary, wMgmt, wProfit] ++ [wSalary]) [] "p" =
      salaryLookup [wSalary, wMgmt, wProfit] [] "p" ∧
    profitBase 100 10 (some wMgmt) (some wMgmt) = profitBase 100 10 none (some wMgmt) ∧
    profitBase 100 10 (some wSalary) (some wSalary) =
      profitBase 100 10 (some wSalary) none :=
  ⟨(C10_profit_share_first_match_only.1 [wSalary, wMgmt, wProfit] [wSalary] [] "p"
      (by decide) (by decide)).1,
   C10_profit_share_first_match_only.2.1 100 10 wMgmt (some wMgmt) rfl,
   C10_profit_share_first_match_only.2.2 100 10 (some wSalary) wSalary rfl⟩

/-- C4: the gross calculator returns the sum over the profile's entries of
`hours × rate` with the rate resolved from the entry's `hourlyRateId`,
entries with an unmatched rate id contributing zero; it returns 0 on empty
and on fully unmatched data (and, being a total function, never throws). -/
theorem C4_gross_correctness :
    (∀ (p : Profile) (entries : List HoursEntry),
        grossFor p.hourlyRates entries p.id =
          ((entries.filter fun e => e.profileId == p.id).map fun e =>
            match p.hourlyRates.find? (fun r => r.id == e.hourlyRateId) with
            | some r => e.hours * r.rate
            | none => 0).sum) ∧
    (∀ p : Profile, grossFor p.hourlyRates [] p.id = 0) ∧
    (∀ (p : Profile) (entries : List HoursEntry),
        (∀ e ∈ entries, p.hourlyRates.find? (fun r => r.id == e.hourlyRateId) = none) →
        grossFor p.hourlyRates entries p.id = 0) := by
  refine ⟨fun p entries => grossFor_eq_sum p.hourlyRates entries p.id, ?_, ?_⟩
  · intro p
    rfl
  · intro p entries hnone
    rw [grossFor_eq_sum]
    refine List.sum_eq_zero ?_
    intro x hx
    rcases List.mem_map.mp hx with ⟨e, he, rfl⟩
    rw [hnone e (List.mem_of_mem_filter he)]

/-- C4 witness: a profile whose single entry carries a dangling rate id has
gross 0. -/
theorem C4_gross_correctness_witness :
    grossFor (Profile.hourlyRates scenCProfile)
      [{ id := "e9", profileId := "p1", hourlyRateId := "gone", hours := 3 }]
      (Profile.id scenCProfile) = 0 :=
  C4_gross_correctness.2.2 scenCProfile
    [{ id := "e9", profileId := "p1", hourlyRateId := "gone", hours := 3 }]
    (by decide)

/-- C5: part_002 processes deductions in ascending priority order — the sort
is a permutation, its output is sorted by priority, ties keep their original
insertion order (stable sort: every equal-priority subsequence is
preserved), the sequential pass follows the sorted order — and for input
priorities [2, 0, 1] the processing order is [0, 1, 2]. -/
theorem C5_priority_order_stable :
    (∀ l : List Deduction, List.Perm (sortDeds l) l) ∧
    (∀ l : List Deduction, (sortDeds l).Pairwise (fun a b => a.priority ≤ b.priority)) ∧
    (∀ (l : List Deduction) (pr : Int),
        (sortDeds l).filter (fun x => x.priority == pr) =
          l.filter (fun x => x.priority == pr)) ∧
    (∀ (sorted : List Deduction) (m : AppliedMap) (pid : String) (gross hours : ℚ)
        (l : List Deduction) (r : ℚ),
        ((runDeds sorted m pid gross hours l r).1).map Prod.fst = l) ∧
    (sortDeds prio201Deds).map Deduction.priority = [0, 1, 2] := by
  refine ⟨sortDeds_perm, sortDeds_pairwise, fun l pr => sortDeds_filter pr l, ?_, by decide⟩
  intro sorted m pid gross hours l r
  exact runDeds_fst_map_fst sorted m pid gross hours l r

/-- The client-payment loop of part_003 doubles the gross contribution of
every entry when no entry resolves to a client rate. -/
theorem clientPaymentLoop_no_match (p : Profile003) :
    ∀ es : List HoursEntry, noClientRateMatch p es = true →
      clientPaymentLoop p es =
        2 * (es.map fun e =>
          match p.hourlyRates.find? (fun r => r.id == e.hourlyRateId) with
          | some r => e.hours * r.rate
          | none => 0).sum := by
  intro es hno
  rw [clientPaymentLoop, List.foldl_ext _ (fun cp e => cp +
      match p.hourlyRates.find? (fun r => r.id == e.hourlyRateId) with
      | some hr => e.hours * hr.rate * 2
      | none => 0)]
  · rw [foldl_add_eq]
    rw [show ∀ l : List ℚ, (0 : ℚ) + l.sum = l.sum from fun l => by ring]
    rw [← List.sum_map_mul_left]
    refine congrArg List.sum (List.map_congr_left ?_)
    intro e _
    cases p.hourlyRates.find? (fun r => r.id == e.hourlyRateId) with
    | none => simp
    | some hr => ring
  · intro cp e he
    have hmem := (List.all_eq_true.mp hno) e he
    cases hfind : p.hourlyRates.find? (fun r => r.id == e.hourlyRateId) with
    | none => simp [hfind]
    | some hr =>
      rw [hfind] at hmem
      simp only at hmem
      rw [Option.isNone_iff_eq_none] at hmem
      simp [hfind, hmem]

/-- C8: in part_003's revenue calculator, a profile none of whose entries
matches a configured client rate gets `clientPayment = employeePayment × 2`
(where the employee payment is the gross amount the caller passes in) and
`profitMargin = clientPayment − employeePayment`; Scenario E (no client
rate, worker rate 25/hr, 4 hours) gives employeePayment 100, clientPayment
200 and profitMargin 100. -/
theorem C8_client_payment_fallback :
    (∀ (p : Profile003) (entries : List HoursEntry),
        noClientRateMatch p (entries.filter fun e => e.profileId == p.id) = true →
        (calcRevenueBreakdown003 p (entries.filter fun e => e.profileId == p.id)
            (grossFor p.hourlyRates entries p.id)).clientPayment =
          grossFor p.hourlyRates entries p.id * 2 ∧
        (calcRevenueBreakdown003 p (entries.filter fun e => e.profileId == p.id)
            (grossFor p.hourlyRates entries p.id)).profitMargin =
          (calcRevenueBreakdown003 p (entries.filter fun e => e.profileId == p.id)
            (grossFor p.hourlyRates entries p.id)).clientPayment -
            grossFor p.hourlyRates entries p.id) ∧
    (grossFor scenEProfile.hourlyRates [scenEEntry] scenEProfile.id = 100 ∧
      (calcRevenueBreakdown003 scenEProfile [scenEEntry] 100).clientPayment = 200 ∧
      (calcRevenueBreakdown003 scenEProfile [scenEEntry] 100).profitMargin = 100) := by
  constructor
  · intro p entries hno
    have hloop := clientPaymentLoop_no_match p
      (entries.filter fun e => e.profileId == p.id) hno
    have hgross := grossFor_eq_sum p.hourlyRates entries p.id
    have hcp : (calcRevenueBreakdown003 p (entries.filter fun e => e.profileId == p.id)
        (grossFor p.hourlyRates entries p.id)).clientPayment =
        grossFor p.hourlyRates entries p.id * 2 := by
      rw [calcRevenueBreakdown003]
      simp only
      rw [hloop, ← hgross]
      by_cases hz : 2 * grossFor p.hourlyRates entries p.id = 0
      · rw [if_pos hz]
      · rw [if_neg hz]
        ring
    refine ⟨hcp, ?_⟩
    rw [calcRevenueBreakdown003]
  · refine ⟨?_, ?_, ?_⟩ <;>
      norm_num [calcRevenueBreakdown003, clientPaymentLoop, grossFor, scenEProfile,
        scenEEntry, List.filter, List.find?, String.reduceBEq]

/-- C8 witness: the fallback hypothesis holds at Scenario E, where the
client payment is twice the gross. -/
theorem C8_client_payment_fallback_witness :
    (calcRevenueBreakdown003 scenEProfile
        ([scenEEntry].filter fun e => e.profileId == scenEProfile.id)
        (grossFor scenEProfile.hourlyRates [scenEEntry] scenEProfile.id)).clientPayment =
      grossFor scenEProfile.hourlyRates [scenEEntry] scenEProfile.id * 2 :=
  (C8_client_payment_fallback.1 scenEProfile [scenEEntry] (by decide)).1

/-- C7 counterexample: in the first part_001 app (cited by the claim), Alice
has gross 40 and net 30, the code's distribution percentage is 75 (it
divides by the total gross `totalAmount`), while the claimed formula
`netAmount / Σ netAmount × 100` gives 100. -/
theorem C7_denominator_counterexample :
    (paymentDistribution001 [c7Profile] [c7Entry]).map PayDist.percentage = [75] ∧
    (calcProfile001 [c7Entry] c7Profile).netAmount = 30 ∧
    (calcProfile001 [c7Entry] c7Profile).netAmount /
        (([c7Profile].map (calcProfile001 [c7Entry])).map CalcResult001.netAmount).sum
        * 100 = 100 ∧
    (75 : ℚ) ≠ 100 := by
  refine ⟨?_, ?_, ?_, by norm_num⟩ <;>
    norm_num [paymentDistribution001, calcProfile001, totalAmount001, hoursFor001,
      sortDeds001, insertByPriority001, dedAmount001, c7Profile, c7Entry, List.filter,
      String.reduceBEq]

/-- C7 amended: the percentage formula `netAmount_i / Σ netAmount × 100`
holds (for a positive denominator) in the part_002 aggregator, whose
denominator is the total net amount; the part_001 aggregator divides by the
total gross amount and the part_003 aggregator by the total client payment
instead. -/
theorem C7_payment_distribution_amended :
    (∀ (profiles : List Profile) (entries : List HoursEntry) (m : AppliedMap),
        0 < totalNet2 profiles entries m →
        paymentDistribution2 profiles entries m =
          (phase2Results profiles entries m).map fun r =>
            { profileId := r.profileId, profileName := r.profileName,
              amount := r.netAmount,
              percentage := r.netAmount / totalNet2 profiles entries m * 100 }) ∧
    (∀ (profiles : List Profile001) (entries : List Entry001),
        0 < totalAmount001 profiles entries →
        paymentDistribution001 profiles entries =
          (profiles.map (calcProfile001 entries)).map fun r =>
            { profileId := r.profileId, profileName := r.profileName,
              amount := r.netAmount,
              percentage := r.netAmount / totalAmount001 profiles entries * 100 }) ∧
    (∀ (profiles : List Profile003) (entries : List HoursEntry) (m : AppliedMap),
        0 < totalClientPayment003 profiles entries m →
        paymentDistribution003 profiles entries m =
          (profiles.map (calcProfile003 entries m)).map fun r =>
            { profileId := r.profileId, profileName := r.profileName,
              amount := r.netAmount,
              percentage :=
                r.netAmount / totalClientPayment003 profiles entries m * 100 }) := by
  refine ⟨?_, ?_, ?_⟩
  · intro profiles entries m h
    rw [paymentDistribution2]
    simp only [if_pos h]
  · intro profiles entries h
    rw [paymentDistribution001]
    simp only [if_pos h]
  · intro profiles entries m h
    rw [paymentDistribution003]
    simp only [if_pos h]

/-- C7 amended witness: at Scenario C the total net is 72 > 0 and the
part_002 distribution carries the net-over-total-net percentages. -/
theorem C7_payment_distribution_amended_witness :
    paymentDistribution2 [scenCProfile] [scenCEntry] [] =
      (phase2Results [scenCProfile] [scenCEntry] []).map fun r =>
        { profileId := r.profileId, profileName := r.profileName,
          amount := r.netAmount,
          percentage := r.netAmount / totalNet2 [scenCProfile] [scenCEntry] [] * 100 } :=
  C7_payment_distribution_amended.1 [scenCProfile] [scenCEntry] []
    (by norm_num [totalNet2, phase2Results, phase1Results, receivedFromOthersFor,
      calcProfile1, hoursFor, grossFor, runDeds, dedAmount, isAppliedKey, dedKey,
      sortDeds, insertByPriority, containsSub, listInfix, listPrefix, salaryLookup,
      mgmtLookup, profitBase, afterSalary, afterMgmt, toItem, List.find?, List.filter,
      List.lookup, scenCProfile, scenCEntry, String.reduceBEq])

/-! Lemmas about the applied-state initializer. -/

theorem initStep_pres_true (acc : AppliedMap) (key' k : String)
    (h : acc.lookup k = some true) :
    (match acc.lookup key' with
     | none => acc ++ [(key', true)]
     | some _ => acc).lookup k = some true := by
  cases hl : acc.lookup key' with
  | none =>
    simp only [hl, List.lookup_append, h]
    rfl
  | some b => simpa only [hl] using h

theorem initStep_good (acc : AppliedMap) (key' k : String)
    (h : acc.lookup k = none ∨ acc.lookup k = some true) :
    (match acc.lookup key' with
     | none => acc ++ [(key', true)]
     | some _ => acc).lookup k = none ∨
    (match acc.lookup key' with
     | none => acc ++ [(key', true)]
     | some _ => acc).lookup k = some true := by
  cases hl : acc.lookup key' with
  | some b => simpa only [hl] using h
  | none =>
    simp only [hl, List.lookup_append]
    rcases h with h | h
    · rw [h]
      by_cases hk : (k == key') = true
      · right
        simp [List.lookup, hk]
      · left
        rw [Bool.not_eq_true] at hk
        simp [List.lookup, hk]
    · right
      rw [h]
      rfl

theorem initStep_sets (acc : AppliedMap) (k : String)
    (h : acc.lookup k = none ∨ acc.lookup k = some true) :
    (match acc.lookup k with
     | none => acc ++ [(k, true)]
     | some _ => acc).lookup k = some true := by
  rcases h with h | h
  · simp only [h, List.lookup_append, List.lookup]
    simp [h]
  · simp only [h]

theorem innerFold_pres_true (pid k : String) :
    ∀ (ds : List Deduction) (acc : AppliedMap), acc.lookup k = some true →
      (ds.foldl (fun acc2 d =>
        match acc2.lookup (dedKey pid d.id) with
        | none => acc2 ++ [(dedKey pid d.id, true)]
        | some _ => acc2) acc).lookup k = some true
  | [], _, h => h
  | d :: ds, acc, h => by
    rw [List.foldl_cons]
    exact innerFold_pres_true pid k ds _ (initStep_pres_true acc (dedKey pid d.id) k h)

theorem innerFold_good (pid k : String) :
    ∀ (ds : List Deduction) (acc : AppliedMap),
      acc.lookup k = none ∨ acc.lookup k = some true →
      ((ds.foldl (fun acc2 d =>
          match acc2.lookup (dedKey pid d.id) with
          | none => acc2 ++ [(dedKey pid d.id, true)]
          | some _ => acc2) acc).lookup k = none ∨
        (ds.foldl (fun acc2 d =>
          match acc2.lookup (dedKey pid d.id) with
          | none => acc2 ++ [(dedKey pid d.id, true)]
          | some _ => acc2) acc).lookup k = some true)
  | [], _, h => h
  | d :: ds, acc, h => by
    rw [List.foldl_cons]
    exact innerFold_good pid k ds _ (initStep_good acc (dedKey pid d.id) k h)

theorem innerFold_sets (pid k : String) :
    ∀ (ds : List Deduction) (acc : AppliedMap) (d : Deduction), d ∈ ds →
      dedKey pid d.id = k →
      acc.lookup k = none ∨ acc.lookup k = some true →
      (ds.foldl (fun acc2 d =>
        match acc2.lookup (dedKey pid d.id) with
        | none => acc2 ++ [(dedKey pid d.id, true)]
        | some _ => acc2) acc).lookup k = some true
  | [], _, d, hd, _, _ => by cases hd
  | d' :: ds, acc, d, hd, hk, h => by
    rw [List.foldl_cons]
    rcases List.mem_cons.mp hd with rfl | hd
    · rw [hk]
      exact innerFold_pres_true pid k ds _ (initStep_sets acc k h)
    · exact innerFold_sets pid k ds _ d hd hk (initStep_good acc (dedKey pid d'.id) k h)

theorem outerFold_pres_true (k : String) :
    ∀ (ps : List Profile) (acc : AppliedMap), acc.lookup k = some true →
      (ps.foldl (fun acc p =>
        p.deductions.foldl (fun acc2 d =>
          match acc2.lookup (dedKey p.id d.id) with
          | none => acc2 ++ [(dedKey p.id d.id, true)]
          | some _ => acc2) acc) acc).lookup k = some true
  | [], _, h => h
  | p :: ps, acc, h => by
    rw [List.foldl_cons]
    exact outerFold_pres_true k ps _ (innerFold_pres_true p.id k p.deductions acc h)

theorem outerFold_sets (k : String) :
    ∀ (ps : List Profile) (acc : AppliedMap) (p : Profile) (d : Deduction),
      p ∈ ps → d ∈ p.deductions → dedKey p.id d.id = k →
      acc.lookup k = none ∨ acc.lookup k = some true →
      (ps.foldl (fun acc p =>
        p.deductions.foldl (fun acc2 d =>
          match acc2.lookup (dedKey p.id d.id) with
          | none => acc2 ++ [(dedKey p.id d.id, true)]
          | some _ => acc2) acc) acc).lookup k = some true
  | [], _, p, d, hp, _, _, _ => by cases hp
  | q :: ps, acc, p, d, hp, hd, hk, h => by
    rw [List.foldl_cons]
    rcases List.mem_cons.mp hp with rfl | hp
    · exact outerFold_pres_true k ps _ (innerFold_sets p.id k p.deductions acc d hd hk h)
    · exact outerFold_sets k ps _ p d hp hd hk (innerFold_good q.id k q.deductions acc h)

/-- C9 counterexample: in the second part_001 app (cited lines 1842–1849,
gate `=== true`), a deduction whose key is absent from the applied-state map
contributes 0 — not its applied amount: gross is 40, a never-toggled 10%
deduction contributes 0 (net stays 40), while the applied amount would be
40 × 10 / 100 = 4 ≠ 0.  So an absent key does not mean applied there. -/
theorem C9_absent_key_counterexample :
    (calcProfile001b [c9Entry] [] c9Profile).amounts = [0] ∧
    (calcProfile001b [c9Entry] [] c9Profile).grossAmount = 40 ∧
    (calcProfile001b [c9Entry] [] c9Profile).netAmount = 40 ∧
    ¬ ((0 : ℚ) = 40 * 10 / 100) := by
  refine ⟨?_, ?_, ?_, by norm_num⟩ <;>
    norm_num [calcProfile001b, hoursFor, grossFor, sortDeds001, insertByPriority001,
      dedAmount001b, isAppliedTrue, dedKey, c9Profile, c9Entry, List.filter, List.find?,
      List.lookup, String.reduceBEq]

/-- C9 amended: the applied-state map is keyed by `profileId-deductionId`
and the initializer records applied = true the first time a deduction is
seen; in part_002 (and part_003) an absent key already means applied
(`!== false`), a toggled-off deduction contributes exactly 0 and leaves the
running remaining amount unchanged; in the second part_001 app's calculator
(`=== true`) an absent key means NOT applied until the initializer records
it. -/
theorem C9_applied_state_amended :
    (∀ (m : AppliedMap) (k : String), m.lookup k = none → isAppliedKey m k = true) ∧
    (∀ (sorted : List Deduction) (m : AppliedMap) (pid : String)
        (gross hours remaining : ℚ) (d : Deduction),
        isAppliedKey m (dedKey pid d.id) = false →
        dedAmount sorted m pid gross hours remaining d = 0) ∧
    (∀ (sorted : List Deduction) (m : AppliedMap) (pid : String)
        (gross hours remaining : ℚ) (d : Deduction) (ds : List Deduction),
        isAppliedKey m (dedKey pid d.id) = false →
        (runDeds sorted m pid gross hours (d :: ds) remaining).1 =
          (d, 0) :: (runDeds sorted m pid gross hours ds remaining).1 ∧
        (runDeds sorted m pid gross hours (d :: ds) remaining).2 =
          (runDeds sorted m pid gross hours ds remaining).2) ∧
    (∀ (profiles : List Profile) (m : AppliedMap) (p : Profile) (d : Deduction),
        p ∈ profiles → d ∈ p.deductions → m.lookup (dedKey p.id d.id) = none →
        (initializeApplied profiles m).lookup (dedKey p.id d.id) = some true) ∧
    (∀ (m : AppliedMap) (k : String), m.lookup k = none → isAppliedTrue m k = false) := by
  refine ⟨?_, ?_, ?_, ?_, ?_⟩
  · intro m k h
    rw [isAppliedKey, h]
  · intro sorted m pid gross hours remaining d h
    rw [dedAmount, h]
    simp
  · intro sorted m pid gross hours remaining d ds h
    have hz : dedAmount sorted m pid gross hours remaining d = 0 := by
      rw [dedAmount, h]
      simp
    constructor <;> simp [runDeds, hz]
  · intro profiles m p d hp hd hnone
    rw [initializeApplied]
    exact outerFold_sets (dedKey p.id d.id) profiles m p d hp hd rfl (Or.inl hnone)
  · intro m k h
    rw [isAppliedTrue, h]

/-- C9 amended witness: concrete instances — an absent key is applied for
part_002's gate, a toggled-off deduction contributes 0 and leaves the
remaining amount unchanged, the initializer records Scenario C's first
deduction as applied = true, and an absent key is not applied for the
second part_001 gate. -/
theorem C9_applied_state_amended_witness :
    isAppliedKey [] "p-d" = true ∧
    dedAmount [] [(dedKey "p" "d", false)] "p" 100 10 50
      { id := "d", name := "P", amount := 10, type := DedType.percentage, priority := 0,
        appliesTo := AppliesTo.employee, recipientProfileId := none } = 0 ∧
    (initializeApplied [scenCProfile] []).lookup (dedKey "p1" "d1") = some true ∧
    isAppliedTrue [] "p-d" = false := by
  refine ⟨C9_applied_state_amended.1 [] "p-d" rfl, ?_, ?_, ?_⟩
  · exact C9_applied_state_amended.2.1 [] [(dedKey "p" "d", false)] "p" 100 10 50 _
      (by decide)
  · refine C9_applied_state_amended.2.2.2.1 [scenCProfile] [] scenCProfile
      (Deduction.mk "d1" "PerHour" 2 DedType.fixed 0 AppliesTo.employee none) ?_ ?_ rfl
    · exact List.mem_cons_self _ _
    · rw [show scenCProfile.deductions =
          [Deduction.mk "d1" "PerHour" 2 DedType.fixed 0 AppliesTo.employee none,
           Deduction.mk "d2" "Percent" 10 DedType.percentage 1 AppliesTo.employee none]
          from rfl]
      exact List.mem_cons_self _ _
  · exact C9_applied_state_amended.2.2.2.2 [] "p-d" rfl

/-! Lemmas for the zero-guard claim. -/

theorem hoursFor_eq_sum (entries : List HoursEntry) (pid : String) :
    hoursFor entries pid =
      ((entries.filter fun e => e.profileId == pid).map HoursEntry.hours).sum := by
  rw [hoursFor, foldl_add_eq HoursEntry.hours]
  ring

theorem totalHoursAgg2_eq_sum (profiles : List Profile) (entries : List HoursEntry)
    (m : AppliedMap) :
    totalHoursAgg2 profiles entries m =
      (profiles.map fun p => hoursFor entries p.id).sum := by
  rw [totalHoursAgg2, foldl_add_eq (fun r : CalcResult => r.totalHours), zero_add]
  congr 1
  simp only [phase2Results, phase1Results, List.map_map]
  rfl

theorem totalNet2_eq_sum (profiles : List Profile) (entries : List HoursEntry)
    (m : AppliedMap) :
    totalNet2 profiles entries m =
      ((phase2Results profiles entries m).map CalcResult.netAmount).sum := by
  rw [totalNet2, foldl_add_eq (fun r : CalcResult => r.netAmount), zero_add]

theorem profitBase_zero (sal mg : Option Deduction) : profitBase 0 0 sal mg = 0 := by
  have h1 : afterSalary 0 0 sal = 0 := by
    cases sal with
    | none => rfl
    | some s =>
      rw [afterSalary]
      by_cases h : s.type = DedType.fixed
      · rw [if_pos h]
        ring
      · rw [if_neg h]
  rw [profitBase, h1]
  cases mg with
  | none => rfl
  | some g =>
    rw [afterMgmt]
    by_cases h : g.type = DedType.percentage
    · rw [if_pos h]
      ring
    · rw [if_neg h]

theorem dedAmount_zero_input (sorted : List Deduction) (m : AppliedMap) (pid : String)
    (d : Deduction) : dedAmount sorted m pid 0 0 0 d = 0 := by
  rw [dedAmount]
  by_cases h : isAppliedKey m (dedKey pid d.id) = true
  · rw [if_pos h]
    cases hty : d.type with
    | fixed =>
      simp only
      ring
    | percentage =>
      simp only
      by_cases hn : containsSub d.name "Profit Share" = true
      · rw [if_pos hn, profitBase_zero]
        ring
      · rw [if_neg hn]
        ring
  · rw [if_neg h]

theorem runDeds_zero_input (sorted : List Deduction) (m : AppliedMap) (pid : String) :
    ∀ l : List Deduction,
      (∀ pa ∈ (runDeds sorted m pid 0 0 l 0).1, pa.2 = 0) ∧
      (runDeds sorted m pid 0 0 l 0).2 = 0
  | [] => by constructor <;> simp [runDeds]
  | d :: ds => by
    have hz : dedAmount sorted m pid 0 0 0 d = 0 := dedAmount_zero_input sorted m pid d
    have hsub : (0 : ℚ) - dedAmount sorted m pid 0 0 0 d = 0 := by
      rw [hz]
      ring
    constructor
    · intro pa hpa
      rw [runDeds] at hpa
      simp only [hsub, List.mem_cons] at hpa
      rcases hpa with rfl | hpa
      · exact hz
      · exact (runDeds_zero_input sorted m pid ds).1 pa hpa
    · rw [runDeds]
      simp only [hsub]
      exact (runDeds_zero_input sorted m pid ds).2

theorem calcProfile1_zero (entries : List HoursEntry) (m : AppliedMap) (p : Profile)
    (hg : grossFor p.hourlyRates entries p.id = 0)
    (hh : hoursFor entries p.id = 0) :
    (calcProfile1 entries m p).netAmount = 0 ∧
    ∀ it ∈ (calcProfile1 entries m p).deductionBreakdown, it.amount = 0 := by
  rw [calcProfile1]
  simp only [hg, hh]
  constructor
  · exact (runDeds_zero_input (sortDeds p.deductions) m p.id (sortDeds p.deductions)).2
  · intro it hit
    rcases List.mem_map.mp hit with ⟨pa, hpa, rfl⟩
    exact (runDeds_zero_input (sortDeds p.deductions) m p.id (sortDeds p.deductions)).1
      pa hpa

theorem recvInner_zero (m : AppliedMap) (opid : String) (rid : String)
    (breakdown : List DedItem) (hz : ∀ it ∈ breakdown, it.amount = 0) :
    ∀ (ds : List Deduction) (acc : ℚ),
      ds.foldl (fun acc2 d =>
        if d.recipientProfileId == some rid then
          if isAppliedKey m (dedKey opid d.id) then
            match breakdown.find? (fun it => it.deductionId == d.id) with
            | some it => acc2 + it.amount
            | none => acc2
          else acc2
        else acc2) acc = acc
  | [], acc => rfl
  | d :: ds, acc => by
    rw [List.foldl_cons]
    have hstep : (if d.recipientProfileId == some rid then
        if isAppliedKey m (dedKey opid d.id) then
          match breakdown.find? (fun it => it.deductionId == d.id) with
          | some it => acc + it.amount
          | none => acc
        else acc
      else acc) = acc := by
      by_cases h1 : (d.recipientProfileId == some rid) = true
      · rw [if_pos h1]
        by_cases h2 : isAppliedKey m (dedKey opid d.id) = true
        · rw [if_pos h2]
          cases hf : breakdown.find? (fun it => it.deductionId == d.id) with
          | none => rfl
          | some it =>
            show acc + it.amount = acc
            rw [hz it (List.mem_of_find?_eq_some hf)]
            ring
        · rw [if_neg h2]
      · rw [if_neg h1]
    rw [hstep]
    exact recvInner_zero m opid rid breakdown hz ds acc

theorem received_zero (profiles : List Profile) (m : AppliedMap) (res : CalcResult) :
    ∀ (p1 : List CalcResult),
      (∀ other ∈ p1, ∀ it ∈ other.deductionBreakdown, it.amount = 0) →
      receivedFromOthersFor profiles m p1 res = 0 := by
  have main : ∀ (p1 : List CalcResult) (acc : ℚ),
      (∀ other ∈ p1, ∀ it ∈ other.deductionBreakdown, it.amount = 0) →
      p1.foldl (fun acc other =>
        if other.profileId == res.profileId then acc
        else
          match profiles.find? (fun p => p.id == other.profileId) with
          | none => acc
          | some op =>
            (sortDeds op.deductions).foldl
              (fun acc2 d =>
                if d.recipientProfileId == some res.profileId then
                  if isAppliedKey m (dedKey op.id d.id) then
                    match other.deductionBreakdown.find?
                        (fun it => it.deductionId == d.id) with
                    | some it => acc2 + it.amount
                    | none => acc2
                  else acc2
                else acc2)
              acc) acc = acc := by
    intro p1
    induction p1 with
    | nil => intro acc _; rfl
    | cons other p1' ih =>
      intro acc hz
      rw [List.foldl_cons]
      have hstep : (if other.profileId == res.profileId then acc
          else
            match profiles.find? (fun p => p.id == other.profileId) with
            | none => acc
            | some op =>
              (sortDeds op.deductions).foldl
                (fun acc2 d =>
                  if d.recipientProfileId == some res.profileId then
                    if isAppliedKey m (dedKey op.id d.id) then
                      match other.deductionBreakdown.find?
                          (fun it => it.deductionId == d.id) with
                      | some it => acc2 + it.amount
                      | none => acc2
                    else acc2
                  else acc2)
                acc) = acc := by
        by_cases h1 : (other.profileId == res.profileId) = true
        · rw [if_pos h1]
        · rw [if_neg h1]
          cases hf : profiles.find? (fun p => p.id == other.profileId) with
          | none => rfl
          | some op =>
            exact recvInner_zero m op.id res.profileId other.deductionBreakdown
              (hz other (List.mem_cons_self _ _)) (sortDeds op.deductions) acc
      rw [hstep]
      exact ih acc fun o ho => hz o (List.mem_cons_of_mem _ ho)
  intro p1 hz
  exact main p1 0 hz

theorem percentage_zero_of_totalNet2 (profiles : List Profile)
    (entries : List HoursEntry) (m : AppliedMap)
    (h : totalNet2 profiles entries m = 0) :
    ∀ it ∈ paymentDistribution2 profiles entries m, it.percentage = 0 := by
  intro it hit
  simp only [paymentDistribution2] at hit
  rcases List.mem_map.mp hit with ⟨r, _, rfl⟩
  show (if totalNet2 profiles entries m > 0 then
      r.netAmount / totalNet2 profiles entries m * 100 else 0) = 0
  rw [h]
  norm_num

theorem totalNet2_zero_of_hours_zero (profiles : List Profile)
    (entries : List HoursEntry) (m : AppliedMap)
    (hnn : ∀ e ∈ entries, 0 ≤ e.hours)
    (h0 : totalHoursAgg2 profiles entries m = 0) :
    totalNet2 profiles entries m = 0 := by
  have hoursNN : ∀ p ∈ profiles, 0 ≤ hoursFor entries p.id := by
    intro p _
    rw [hoursFor_eq_sum]
    refine List.sum_nonneg ?_
    intro x hx
    rcases List.mem_map.mp hx with ⟨e, he, rfl⟩
    exact hnn e (List.mem_of_mem_filter he)
  have hoursZero : ∀ p ∈ profiles, hoursFor entries p.id = 0 := by
    intro p hp
    rw [totalHoursAgg2_eq_sum] at h0
    have := List.all_zero_of_le_zero_le_of_sum_eq_zero
      (l := profiles.map fun p => hoursFor entries p.id) ?_ h0
      (List.mem_map_of_mem _ hp)
    · exact this
    · intro x hx
      rcases List.mem_map.mp hx with ⟨q, hq, rfl⟩
      exact hoursNN q hq
  have entryZero : ∀ p ∈ profiles, ∀ e ∈ entries.filter (fun e => e.profileId == p.id),
      e.hours = 0 := by
    intro p hp e he
    have hsum := hoursZero p hp
    rw [hoursFor_eq_sum] at hsum
    exact List.all_zero_of_le_zero_le_of_sum_eq_zero
      (fun x hx => by
        rcases List.mem_map.mp hx with ⟨e', he', rfl⟩
        exact hnn e' (List.mem_of_mem_filter he'))
      hsum (List.mem_map_of_mem HoursEntry.hours he)
  have grossZero : ∀ p ∈ profiles, grossFor p.hourlyRates entries p.id = 0 := by
    intro p hp
    rw [grossFor_eq_sum]
    refine List.sum_eq_zero ?_
    intro x hx
    rcases List.mem_map.mp hx with ⟨e, he, rfl⟩
    cases hf : p.hourlyRates.find? (fun r => r.id == e.hourlyRateId) with
    | none => simp
    | some r =>
      simp only
      rw [entryZero p hp e he]
      ring
  have netZero : ∀ r ∈ phase2Results profiles entries m, r.netAmount = 0 := by
    intro r hr
    simp only [phase2Results] at hr
    rcases List.mem_map.mp hr with ⟨res, hres, rfl⟩
    rw [phase1Results] at hres
    rcases List.mem_map.mp hres with ⟨p, hp, rfl⟩
    show (calcProfile1 entries m p).netAmount +
        receivedFromOthersFor profiles m (phase1Results profiles entries m)
          (calcProfile1 entries m p) = 0
    have hz := calcProfile1_zero entries m p (grossZero p hp) (hoursZero p hp)
    have hrecv : receivedFromOthersFor profiles m
        (phase1Results profiles entries m) (calcProfile1 entries m p) = 0 := by
      refine received_zero profiles m (calcProfile1 entries m p)
        (phase1Results profiles entries m) ?_
      intro other hother
      rcases List.mem_map.mp hother with ⟨q, hq, rfl⟩
      exact (calcProfile1_zero entries m q (grossZero q hq) (hoursZero q hq)).2
    rw [hz.1, hrecv]
    ring
  rw [totalNet2_eq_sum]
  refine List.sum_eq_zero ?_
  intro x hx
  rcases List.mem_map.mp hx with ⟨r, hr, rfl⟩
  exact netZero r hr

/-- C6: the aggregator's division-by-zero guards — when the total hours are
0 the average rate is 0; when the total payment is 0 the average rate is 0;
when the distribution denominator (total net) is 0 every percentage is 0;
and (for non-negative hour entries) when the total hours are 0 every
percentage is 0.  All embedded operations are total, so no NaN, Infinity or
exception can arise. -/
theorem C6_zero_guards :
    (∀ (profiles : List Profile) (entries : List HoursEntry) (m : AppliedMap),
        totalHoursAgg2 profiles entries m = 0 → averageRate2 profiles entries m = 0) ∧
    (∀ (profiles : List Profile) (entries : List HoursEntry) (m : AppliedMap),
        totalGross2 profiles entries m = 0 → averageRate2 profiles entries m = 0) ∧
    (∀ (profiles : List Profile) (entries : List HoursEntry) (m : AppliedMap),
        totalNet2 profiles entries m = 0 →
        ∀ it ∈ paymentDistribution2 profiles entries m, it.percentage = 0) ∧
    (∀ (profiles : List Profile) (entries : List HoursEntry) (m : AppliedMap),
        (∀ e ∈ entries, 0 ≤ e.hours) →
        totalHoursAgg2 profiles entries m = 0 →
        ∀ it ∈ paymentDistribution2 profiles entries m, it.percentage = 0) := by
  refine ⟨?_, ?_, ?_, ?_⟩
  · intro profiles entries m h
    rw [averageRate2, h]
    norm_num
  · intro profiles entries m h
    rw [averageRate2, h]
    by_cases hth : totalHoursAgg2 profiles entries m > 0
    · rw [if_pos hth]
      exact zero_div _
    · rw [if_neg hth]
  · intro profiles entries m h
    exact percentage_zero_of_totalNet2 profiles entries m h
  · intro profiles entries m hnn h0
    exact percentage_zero_of_totalNet2 profiles entries m
      (totalNet2_zero_of_hours_zero profiles entries m hnn h0)

/-- C6 witness: with no entries at all, total hours are 0, the average rate
is 0 and Scenario C's profile gets distribution percentage 0. -/
theorem C6_zero_guards_witness :
    averageRate2 [scenCProfile] [] [] = 0 ∧
    ∀ it ∈ paymentDistribution2 [scenCProfile] [] [], it.percentage = 0 := by
  have hth : totalHoursAgg2 [scenCProfile] [] [] = 0 := by
    norm_num [totalHoursAgg2, phase2Results, phase1Results, receivedFromOthersFor,
      calcProfile1, hoursFor, grossFor, runDeds, dedAmount, isAppliedKey, dedKey,
      sortDeds, insertByPriority, containsSub, listInfix, listPrefix, salaryLookup,
      mgmtLookup, profitBase, afterSalary, afterMgmt, toItem, List.find?, List.filter,
      List.lookup, scenCProfile, String.reduceBEq]
  exact ⟨C6_zero_guards.1 [scenCProfile] [] [] hth,
    C6_zero_guards.2.2.2 [scenCProfile] [] [] (fun e he => by cases he) hth⟩

/-! Lemmas for the conservation claim. -/

theorem sum_map_sub {α : Type} (f g : α → ℚ) :
    ∀ l : List α, (l.map fun x => f x - g x).sum = (l.map f).sum - (l.map g).sum
  | [] => by simp
  | x :: xs => by
    simpa [sum_map_sub f g xs] using by ring

theorem totalGross2_eq_sum (profiles : List Profile) (entries : List HoursEntry)
    (m : AppliedMap) :
    totalGross2 profiles entries m =
      (profiles.map fun p => grossFor p.hourlyRates entries p.id).sum := by
  rw [totalGross2, foldl_add_eq (fun r : CalcResult => r.grossAmount), zero_add]
  congr 1
  simp only [phase2Results, phase1Results, List.map_map]
  rfl

theorem calcProfile1_profileId (entries : List HoursEntry) (m : AppliedMap) (p : Profile) :
    (calcProfile1 entries m p).profileId = p.id := rfl

theorem calcProfile1_breakdown (entries : List HoursEntry) (m : AppliedMap) (p : Profile) :
    (calcProfile1 entries m p).deductionBreakdown = (pairsOf entries m p).map toItem := rfl

theorem calcProfile1_net (entries : List HoursEntry) (m : AppliedMap) (p : Profile) :
    (calcProfile1 entries m p).netAmount =
      grossFor p.hourlyRates entries p.id - ((pairsOf entries m p).map Prod.snd).sum := by
  show (runDeds (sortDeds p.deductions) m p.id (grossFor p.hourlyRates entries p.id)
      (hoursFor entries p.id) (sortDeds p.deductions)
      (grossFor p.hourlyRates entries p.id)).2 = _
  rw [runDeds_snd]
  rfl

theorem pairsOf_fst (entries : List HoursEntry) (m : AppliedMap) (p : Profile) :
    (pairsOf entries m p).map Prod.fst = sortDeds p.deductions :=
  runDeds_fst_map_fst (sortDeds p.deductions) m p.id _ _ (sortDeds p.deductions) _

theorem pairsOf_nodup_ids (entries : List HoursEntry) (m : AppliedMap) (p : Profile)
    (hd : (p.deductions.map Deduction.id).Nodup) :
    ((pairsOf entries m p).map fun pa => pa.1.id).Nodup := by
  have h1 : ((pairsOf entries m p).map fun pa => pa.1.id) =
      ((pairsOf entries m p).map Prod.fst).map Deduction.id := by
    rw [List.map_map]
    rfl
  rw [h1, pairsOf_fst]
  exact ((sortDeds_perm p.deductions).map Deduction.id).nodup_iff.mpr hd

theorem breakdown_find (entries : List HoursEntry) (m : AppliedMap) (q : Profile)
    (hd : (q.deductions.map Deduction.id).Nodup) (pa : Deduction × ℚ)
    (hpa : pa ∈ pairsOf entries m q) :
    ((pairsOf entries m q).map toItem).find? (fun it => it.deductionId == pa.1.id) =
      some (toItem pa) := by
  have hnd : (((pairsOf entries m q).map toItem).map DedItem.deductionId).Nodup := by
    rw [List.map_map]
    exact pairsOf_nodup_ids entries m q hd
  exact find?_key_self DedItem.deductionId ((pairsOf entries m q).map toItem)
    (toItem pa) hnd (List.mem_map_of_mem toItem hpa)

theorem innerRecv_eq (m : AppliedMap) (opid rid : String) (breakdown : List DedItem) :
    ∀ (ds : List Deduction) (acc : ℚ),
      ds.foldl (fun acc2 d =>
        if d.recipientProfileId == some rid then
          if isAppliedKey m (dedKey opid d.id) then
            match breakdown.find? (fun it => it.deductionId == d.id) with
            | some it => acc2 + it.amount
            | none => acc2
          else acc2
        else acc2) acc =
      acc + (ds.map fun d =>
        if d.recipientProfileId == some rid then
          if isAppliedKey m (dedKey opid d.id) then
            match breakdown.find? (fun it => it.deductionId == d.id) with
            | some it => it.amount
            | none => 0
          else 0
        else 0).sum := by
  intro ds acc
  refine (List.foldl_ext _ (fun acc2 d => acc2 +
      (if d.recipientProfileId == some rid then
        if isAppliedKey m (dedKey opid d.id) then
          match breakdown.find? (fun it => it.deductionId == d.id) with
          | some it => it.amount
          | none => 0
        else 0
      else 0)) acc ?_).trans (foldl_add_eq _ ds acc)
  intro a d _
  dsimp only
  by_cases h1 : (d.recipientProfileId == some rid) = true
  · rw [if_pos h1, if_pos h1]
    by_cases h2 : isAppliedKey m (dedKey opid d.id) = true
    · rw [if_pos h2, if_pos h2]
      cases hf : breakdown.find? (fun it => it.deductionId == d.id) with
      | none =>
        show a = a + 0
        ring
      | some it => rfl
    · rw [if_neg h2, if_neg h2]
      show a = a + 0
      ring
  · rw [if_neg h1, if_neg h1]
    show a = a + 0
    ring

theorem recvFold_eq_sum (profiles : List Profile) (m : AppliedMap)
    (p1 : List CalcResult) (res : CalcResult) :
    receivedFromOthersFor profiles m p1 res =
      (p1.map fun other =>
        if other.profileId == res.profileId then 0
        else
          match profiles.find? (fun p => p.id == other.profileId) with
          | none => 0
          | some op =>
            ((sortDeds op.deductions).map fun d =>
              if d.recipientProfileId == some res.profileId then
                if isAppliedKey m (dedKey op.id d.id) then
                  match other.deductionBreakdown.find?
                      (fun it => it.deductionId == d.id) with
                  | some it => it.amount
                  | none => 0
                else 0
              else 0).sum).sum := by
  rw [receivedFromOthersFor]
  refine (List.foldl_ext _ (fun acc other => acc +
      (if other.profileId == res.profileId then 0
        else
          match profiles.find? (fun p => p.id == other.profileId) with
          | none => 0
          | some op =>
            ((sortDeds op.deductions).map fun d =>
              if d.recipientProfileId == some res.profileId then
                if isAppliedKey m (dedKey op.id d.id) then
                  match other.deductionBreakdown.find?
                      (fun it => it.deductionId == d.id) with
                  | some it => it.amount
                  | none => 0
                else 0
              else 0).sum)) 0 ?_).trans ?_
  · intro a other _
    dsimp only
    by_cases h1 : (other.profileId == res.profileId) = true
    · rw [if_pos h1, if_pos h1]
      show a = a + 0
      ring
    · rw [if_neg h1, if_neg h1]
      cases hf : profiles.find? (fun p => p.id == other.profileId) with
      | none =>
        show a = a + 0
        ring
      | some op =>
        exact innerRecv_eq m op.id res.profileId other.deductionBreakdown
          (sortDeds op.deductions) a
  · rw [foldl_add_eq]
    ring

theorem received_eq (profiles : List Profile) (entries : List HoursEntry)
    (m : AppliedMap) (hids : (profiles.map Profile.id).Nodup)
    (hdids : ∀ q ∈ profiles, (q.deductions.map Deduction.id).Nodup) (p : Profile) :
    receivedFromOthersFor profiles m (phase1Results profiles entries m)
      (calcProfile1 entries m p) =
      (profiles.map fun q =>
        if q.id = p.id then 0
        else ((pairsOf entries m q).map fun pa =>
          if pa.1.recipientProfileId = some p.id then pa.2 else 0).sum).sum := by
  rw [recvFold_eq_sum, phase1Results, List.map_map]
  refine congrArg List.sum (List.map_congr_left ?_)
  intro q hq
  simp only [Function.comp, calcProfile1_profileId, calcProfile1_breakdown]
  by_cases hqp : (q.id == p.id) = true
  · rw [if_pos hqp, if_pos (beq_iff_eq.mp hqp)]
  · rw [if_neg hqp, if_neg (fun h => hqp (beq_iff_eq.mpr h))]
    rw [find?_key_self Profile.id profiles q hids hq]
    show ((sortDeds q.deductions).map _).sum = _
    rw [← pairsOf_fst entries m q, List.map_map]
    refine congrArg List.sum (List.map_congr_left ?_)
    intro pa hpa
    simp only [Function.comp]
    by_cases hr : (pa.1.recipientProfileId == some p.id) = true
    · rw [if_pos hr, if_pos (beq_iff_eq.mp hr)]
      by_cases happ : isAppliedKey m (dedKey q.id pa.1.id) = true
      · rw [if_pos happ, breakdown_find entries m q (hdids q hq) pa hpa]
        rfl
      · rw [if_neg happ]
        rw [runDeds_amount_zero_of_not_applied (sortDeds q.deductions) m q.id _ _
          (sortDeds q.deductions) _ pa hpa (by simpa using happ)]
    · rw [if_neg hr, if_neg (fun h => hr (beq_iff_eq.mpr h))]

theorem transfer_sum_eq (profiles : List Profile) (entries : List HoursEntry)
    (m : AppliedMap) (hids : (profiles.map Profile.id).Nodup) :
    (profiles.map fun p =>
      (profiles.map fun q =>
        if q.id = p.id then 0
        else ((pairsOf entries m q).map fun pa =>
          if pa.1.recipientProfileId = some p.id then pa.2 else 0).sum).sum).sum =
    (profiles.map fun q =>
      ((pairsOf entries m q).map fun pa =>
        if hasValidRecipient profiles q.id pa.1 then pa.2 else 0).sum).sum := by
  rw [sum_map_swap (fun p q =>
    if q.id = p.id then 0
    else ((pairsOf entries m q).map fun pa =>
      if pa.1.recipientProfileId = some p.id then pa.2 else 0).sum) profiles profiles]
  refine congrArg List.sum (List.map_congr_left ?_)
  intro q _
  have h1 : (profiles.map fun p =>
      if q.id = p.id then 0
      else ((pairsOf entries m q).map fun pa =>
        if pa.1.recipientProfileId = some p.id then pa.2 else 0).sum) =
      profiles.map fun p =>
        ((pairsOf entries m q).map fun pa =>
          if q.id = p.id then 0
          else if pa.1.recipientProfileId = some p.id then pa.2 else 0).sum := by
    refine List.map_congr_left ?_
    intro p _
    by_cases hqp : q.id = p.id
    · rw [if_pos hqp]
      symm
      refine List.sum_eq_zero ?_
      intro x hx
      rcases List.mem_map.mp hx with ⟨pa, _, rfl⟩
      rw [if_pos hqp]
    · rw [if_neg hqp]
      refine congrArg List.sum (List.map_congr_left ?_)
      intro pa _
      rw [if_neg hqp]
  rw [h1]
  rw [sum_map_swap (fun p pa =>
    if q.id = p.id then 0
    else if pa.1.recipientProfileId = some p.id then pa.2 else 0) profiles
    (pairsOf entries m q)]
  refine congrArg List.sum (List.map_congr_left ?_)
  intro pa _
  cases hrec : pa.1.recipientProfileId with
  | none =>
    rw [List.sum_eq_zero ?_]
    · rw [show hasValidRecipient profiles q.id pa.1 = false by
        simp only [hasValidRecipient, hrec]]
      simp
    · intro x hx
      rcases List.mem_map.mp hx with ⟨p, _, rfl⟩
      by_cases hqp : q.id = p.id
      · rw [if_pos hqp]
      · rw [if_neg hqp, if_neg (fun h => Option.noConfusion h)]
  | some r =>
    have hL : (profiles.map fun p =>
        if q.id = p.id then 0
        else if some r = some p.id then pa.2 else 0) =
        profiles.map fun p =>
          if p.id = r then (if q.id = r then 0 else pa.2) else 0 := by
      refine List.map_congr_left ?_
      intro p _
      by_cases hpr : p.id = r
      · by_cases hqp : q.id = p.id
        · rw [if_pos hqp, if_pos hpr, if_pos (hqp.trans hpr)]
        · rw [if_neg hqp, if_pos hpr,
            if_pos (show some r = some p.id by rw [hpr]),
            if_neg (fun h => hqp (h.trans hpr.symm))]
      · rw [if_neg hpr]
        by_cases hqp : q.id = p.id
        · rw [if_pos hqp]
        · rw [if_neg hqp,
            if_neg (fun h : some r = some p.id => hpr (Option.some.inj h).symm)]
    rw [hL, sum_map_if_key Profile.id r _ profiles hids]
    rw [show hasValidRecipient profiles q.id pa.1 =
        (!(r == q.id) && (profiles.map Profile.id).contains r) by
      simp only [hasValidRecipient, hrec]]
    by_cases hmem : r ∈ profiles.map Profile.id
    · rw [if_pos hmem]
      have hc : (profiles.map Profile.id).contains r = true :=
        List.elem_eq_true_of_mem hmem
      by_cases hqr : q.id = r
      · rw [if_pos hqr]
        rw [show (r == q.id) = true by simpa using hqr.symm]
        simp
      · rw [if_neg hqr]
        rw [show (r == q.id) = false by
          refine beq_eq_false_iff_ne.mpr ?_
          intro h
          exact hqr h.symm]
        rw [hc]
        simp
    · rw [if_neg hmem]
      have hc : (profiles.map Profile.id).contains r = false := by
        cases h : (profiles.map Profile.id).contains r
        · rfl
        · exact absurd (List.mem_of_elem_eq_true h) hmem
      rw [hc, Bool.and_false]
      simp

/-- C3: conservation under transfer — with distinct profile ids and, per
profile, distinct deduction ids, the sum of all final net amounts equals the
sum of all gross amounts minus the deduction amounts that no valid recipient
(an existing *other* profile) picks up; amounts with a valid recipient are
transferred, not destroyed. -/
theorem C3_conservation_under_transfer (profiles : List Profile)
    (entries : List HoursEntry) (m : AppliedMap)
    (hids : (profiles.map Profile.id).Nodup)
    (hdids : ∀ p ∈ profiles, (p.deductions.map Deduction.id).Nodup) :
    totalNet2 profiles entries m =
      totalGross2 profiles entries m - lostSum profiles entries m := by
  rw [totalNet2_eq_sum]
  have h2 : (phase2Results profiles entries m).map CalcResult.netAmount =
      (profiles.map (calcProfile1 entries m)).map fun res =>
        res.netAmount + receivedFromOthersFor profiles m
          (phase1Results profiles entries m) res := by
    show ((profiles.map (calcProfile1 entries m)).map _).map _ = _
    rw [List.map_map]
    rfl
  rw [h2, List.map_map]
  have h3 : (profiles.map ((fun res =>
      res.netAmount + receivedFromOthersFor profiles m
        (phase1Results profiles entries m) res) ∘ calcProfile1 entries m)) =
      profiles.map fun p =>
        (grossFor p.hourlyRates entries p.id -
          ((pairsOf entries m p).map Prod.snd).sum) +
        (profiles.map fun q =>
          if q.id = p.id then 0
          else ((pairsOf entries m q).map fun pa =>
            if pa.1.recipientProfileId = some p.id then pa.2 else 0).sum).sum := by
    refine List.map_congr_left ?_
    intro p _
    show (calcProfile1 entries m p).netAmount + receivedFromOthersFor profiles m
        (phase1Results profiles entries m) (calcProfile1 entries m p) = _
    rw [calcProfile1_net, received_eq profiles entries m hids hdids p]
  rw [h3, sum_map_add (fun p => grossFor p.hourlyRates entries p.id -
      ((pairsOf entries m p).map Prod.snd).sum)
    (fun p => (profiles.map fun q =>
      if q.id = p.id then 0
      else ((pairsOf entries m q).map fun pa =>
        if pa.1.recipientProfileId = some p.id then pa.2 else 0).sum).sum) profiles]
  rw [transfer_sum_eq profiles entries m hids]
  rw [sum_map_sub (fun p => grossFor p.hourlyRates entries p.id)
    (fun p => ((pairsOf entries m p).map Prod.snd).sum) profiles]
  rw [totalGross2_eq_sum, lostSum]
  have h4 : (profiles.map fun p =>
      ((pairsOf entries m p).map fun pa =>
        if hasValidRecipient profiles p.id pa.1 then 0 else pa.2).sum).sum =
      (profiles.map fun p => ((pairsOf entries m p).map Prod.snd).sum).sum -
      (profiles.map fun q =>
        ((pairsOf entries m q).map fun pa =>
          if hasValidRecipient profiles q.id pa.1 then pa.2 else 0).sum).sum := by
    rw [← sum_map_sub (fun p => ((pairsOf entries m p).map Prod.snd).sum)
      (fun q => ((pairsOf entries m q).map fun pa =>
        if hasValidRecipient profiles q.id pa.1 then pa.2 else 0).sum) profiles]
    refine congrArg List.sum (List.map_congr_left ?_)
    intro p _
    rw [← sum_map_sub Prod.snd (fun pa =>
      if hasValidRecipient profiles p.id pa.1 then pa.2 else 0) (pairsOf entries m p)]
    refine congrArg List.sum (List.map_congr_left ?_)
    intro pa _
    by_cases hv : hasValidRecipient profiles p.id pa.1 = true
    · rw [if_pos hv, if_pos hv]
      ring
    · rw [if_neg hv, if_neg hv]
      ring
  rw [h4]
  ring

/-- C3 witness: profile A (gross 50) transfers its 15 deduction to B; the
total net 50 equals the total gross 50 minus a lost sum of 0. -/
theorem C3_conservation_under_transfer_witness :
    totalNet2 [wProfileA, wProfileB] [wEntryA] [] =
      totalGross2 [wProfileA, wProfileB] [wEntryA] [] -
        lostSum [wProfileA, wProfileB] [wEntryA] [] :=
  C3_conservation_under_transfer [wProfileA, wProfileB] [wEntryA] []
    (by decide) (by decide)

end HoursTrack
